import Mathlib

/-
Verification of the movies-api (greenlight) request pipeline, data layer and
token model.  Each Go function referenced by a claim is embedded as a Lean
definition over explicit state; external effects (database scans, randomness,
wall-clock time) are passed as explicit arguments.
-/

namespace Greenlight

/-! ## Validator

Modelled from the spec: the `internal/validator` package is not among the
sources (only its callers are).  Spec 4.1: `check(condition, field, message)`
records a failure for `field` if `condition` is false; `valid()` reports
whether any failure was recorded; one message per field name, a later failure
on a field that already has one is not added.  The Go map of errors is
modelled as an association list in which the first entry for a field wins. -/

structure Validator where
  errors : List (String × String)
deriving Repr, DecidableEq

def Validator.new : Validator := ⟨[]⟩

def Validator.addError (v : Validator) (field message : String) : Validator :=
  if v.errors.any (fun e => e.1 = field) then v else ⟨v.errors ++ [(field, message)]⟩

def Validator.check (v : Validator) (cond : Bool) (field message : String) : Validator :=
  if cond then v else v.addError field message

def Validator.valid (v : Validator) : Bool := v.errors.isEmpty

/-- Modelled from the spec: `validator.In` (package missing from the sources),
the loop returning true iff `value` equals one of `list`. -/
def validatorIn (value : String) : List String → Bool
  | [] => false
  | x :: rest => if value = x then true else validatorIn value rest

/-! ## Filters (internal/data/filters.go) -/

structure Filters where
  page : Int
  pageSize : Int
  sort : String
  sortSafeList : List String
deriving Repr, DecidableEq

/-- `strings.TrimPrefix(f.Sort, "-")`: remove one leading dash if present. -/
def trimDash (s : String) : String := if s.startsWith "-" then s.drop 1 else s

/-- The loop body of `Filters.sortColumn`; `none` is the `panic` branch that
is reached when the loop falls through without a match. -/
def sortColumnLoop (sort : String) : List String → Option String
  | [] => none
  | safeValue :: rest =>
      if sort = safeValue then some (trimDash sort) else sortColumnLoop sort rest

def Filters.sortColumn (f : Filters) : Option String :=
  sortColumnLoop f.sort f.sortSafeList

def Filters.sortDirection (f : Filters) : String :=
  if f.sort.startsWith "-" then "DESC" else "ASC"

/-- `ValidateFilters` from internal/data/filters.go. -/
def ValidateFilters (v : Validator) (f : Filters) : Validator :=
  ((((v.check (decide (f.page > 0)) "page" "must be greater than zero").check
      (decide (f.page ≤ 10000000)) "page" "must be a maximum of 10 million").check
      (decide (f.pageSize > 0)) "page_size" "must be greater than zero").check
      (decide (f.pageSize ≤ 100)) "page_size" "must be a maximum of 100").check
      (validatorIn f.sort f.sortSafeList) "sort" "invalid sort value"

/-- The sort safe list installed by `listMoviesHandler` (cmd/api/movies.go). -/
def listMoviesSortSafeList : List String :=
  ["id", "title", "year", "runtime", "-id", "-title", "-year", "-runtime"]

/-- The `Filters` value that `listMoviesHandler` builds from the query string
before calling `ValidateFilters` and, only on success, `GetAll`. -/
def listMoviesFilters (page pageSize : Int) (sort : String) : Filters :=
  ⟨page, pageSize, sort, listMoviesSortSafeList⟩

/-! ### Validator lemmas -/

theorem Validator.addError_not_valid (v : Validator) (field message : String) :
    (v.addError field message).valid = false := by
  unfold Validator.addError Validator.valid
  split
  · rename_i h
    rcases v with ⟨errors⟩
    cases errors with
    | nil => simp at h
    | cons e rest => simp [List.isEmpty]
  · simp [List.isEmpty_eq_true]

theorem Validator.check_false_not_valid (v : Validator) (field message : String) :
    (v.check false field message).valid = false := by
  unfold Validator.check
  simp [Validator.addError_not_valid]

theorem Validator.check_invalid_mono (v : Validator) (c : Bool) (field message : String)
    (h : v.valid = false) : (v.check c field message).valid = false := by
  unfold Validator.check
  cases c with
  | true => simpa using h
  | false => simp [Validator.addError_not_valid]

theorem Validator.check_valid_elim (v : Validator) (c : Bool) (field message : String)
    (h : (v.check c field message).valid = true) : v.valid = true ∧ c = true := by
  cases c with
  | true => exact ⟨by simpa [Validator.check] using h, rfl⟩
  | false =>
    exfalso
    rw [Validator.check_false_not_valid] at h
    exact Bool.false_ne_true h

theorem validatorIn_iff_mem (value : String) (l : List String) :
    validatorIn value l = true ↔ value ∈ l := by
  induction l with
  | nil => simp [validatorIn]
  | cons x rest ih =>
    by_cases h : value = x
    · subst h; simp [validatorIn]
    · simp [validatorIn, h, ih]

theorem sortColumnLoop_of_mem (sort : String) (l : List String) (h : sort ∈ l) :
    sortColumnLoop sort l = some (trimDash sort) := by
  induction l with
  | nil => cases h
  | cons x rest ih =>
    by_cases hx : sort = x
    · simp [sortColumnLoop, hx]
    · rcases List.mem_cons.mp h with h1 | h2
      · exact absurd h1 hx
      · simp [sortColumnLoop, hx, ih h2]

/-- C6: a sort value outside the per-resource safe list is rejected during
filter validation (ValidateFilters cannot succeed on it), and for every
Filters value whose Sort is a member of its SortSafeList — in particular any
value the list-movies handler lets through to the query builder —
`sortColumn` returns Sort with any leading dash removed, so its panic branch
(`none`) is unreachable. -/
theorem c6_sort_safelist (f : Filters) (v : Validator) (page pageSize : Int) (sort : String) :
    (f.sort ∈ f.sortSafeList → f.sortColumn = some (trimDash f.sort)) ∧
    (f.sort ∉ f.sortSafeList → (ValidateFilters v f).valid = false) ∧
    ((ValidateFilters v (listMoviesFilters page pageSize sort)).valid = true →
      sort ∈ listMoviesSortSafeList ∧
      (listMoviesFilters page pageSize sort).sortColumn = some (trimDash sort)) := by
  refine ⟨fun h => sortColumnLoop_of_mem f.sort f.sortSafeList h, fun h => ?_, fun h => ?_⟩
  · have hin : validatorIn f.sort f.sortSafeList = false := by
      cases hv : validatorIn f.sort f.sortSafeList
      · rfl
      · exact absurd ((validatorIn_iff_mem f.sort f.sortSafeList).mp hv) h
    unfold ValidateFilters
    rw [hin]
    exact Validator.check_false_not_valid _ _ _
  · unfold ValidateFilters at h
    have h2 := Validator.check_valid_elim _ _ _ _ h
    have hmem : sort ∈ listMoviesSortSafeList :=
      (validatorIn_iff_mem _ _).mp h2.2
    exact ⟨hmem, sortColumnLoop_of_mem _ _ hmem⟩

theorem c6_sort_safelist_witness :
    Filters.sortColumn ⟨1, 20, "-year", listMoviesSortSafeList⟩ = some (trimDash "-year") ∧
    (ValidateFilters Validator.new ⟨1, 20, "rating", listMoviesSortSafeList⟩).valid = false ∧
    ("-year" ∈ listMoviesSortSafeList ∧
      Filters.sortColumn (listMoviesFilters 1 20 "-year") = some (trimDash "-year")) :=
  ⟨(c6_sort_safelist ⟨1, 20, "-year", listMoviesSortSafeList⟩ Validator.new 1 20 "-year").1
      (by decide),
   (c6_sort_safelist ⟨1, 20, "rating", listMoviesSortSafeList⟩ Validator.new 1 20 "rating").2.1
      (by decide),
   (c6_sort_safelist ⟨1, 20, "-year", listMoviesSortSafeList⟩ Validator.new 1 20 "-year").2.2
      (by decide)⟩

/-! ## Data model (internal/data) -/

/-- The `password` struct of internal/data/users.go: an optional in-memory
plaintext and the bcrypt hash blob; both are nilable in Go. -/
structure Password where
  plaintext : Option String
  hash : Option (List Nat)
deriving Repr, DecidableEq

/-- `User` from internal/data/users.go; `createdAt` is an abstract timestamp. -/
structure User where
  id : Int
  createdAt : Int
  name : String
  email : String
  password : Password
  activated : Bool
  version : Int
deriving Repr, DecidableEq

/-- `Movie` from internal/data/movies.go. -/
structure Movie where
  id : Int
  createdAt : Int
  title : String
  year : Int
  runtime : Int
  genres : List String
  version : Int
deriving Repr, DecidableEq

/-- The error taxonomy of the data layer: `ErrRecordNotFound`, `ErrEditConflict`
(internal/data/models.go), `ErrDuplicateEmail` (internal/data/users.go) and an
unrecognised store error carried through unchanged. -/
inductive DataErr where
  | recordNotFound
  | editConflict
  | duplicateEmail
  | store (msg : String)
deriving Repr, DecidableEq

/-! ## Middleware: authorization gates (cmd/api/middleware.go)

Modelled from the spec: `data.AnonymousUser` and `User.IsAnonymous` are not
among the sources (only their callers in middleware.go are).  Spec 9 describes
the request identity as a typed optional identity — an anonymous sentinel
versus an authenticated identity; the sentinel is a zero-valued user, so field
reads on it yield zero values. -/
structure RequestUser where
  user : User
  isAnonymous : Bool
deriving Repr, DecidableEq

/-- The zero-valued `data.AnonymousUser` sentinel attached by `authenticate`
when no Authorization header is present. -/
def anonymousUser : RequestUser :=
  ⟨{ id := 0, createdAt := 0, name := "", email := "", password := ⟨none, none⟩,
     activated := false, version := 0 }, true⟩

/-- The observable outcome of running a gated handler on one request: either
the wrapped handler body executed (producing `a`), or one of the error
responses of cmd/api middleware short-circuited. -/
inductive GateOutcome (α : Type) where
  | handled (a : α)
  | authenticationRequired
  | inactiveAccount
  | notPermitted
  | serverError
deriving Repr, DecidableEq

/-- A handler reads the request identity from the request context. -/
def GateHandler (α : Type) : Type := RequestUser → GateOutcome α

/-- `requireAuthenticatedUser`: reject the anonymous identity with 401. -/
def requireAuthenticatedUser (next : GateHandler α) : GateHandler α := fun ru =>
  if ru.isAnonymous then GateOutcome.authenticationRequired else next ru

/-- `requireActivatedUser`: reject an unactivated identity with 403, wrapped
inside `requireAuthenticatedUser`. -/
def requireActivatedUser (next : GateHandler α) : GateHandler α :=
  requireAuthenticatedUser fun ru =>
    if !ru.user.activated then GateOutcome.inactiveAccount else next ru

/-- `Permissions.Include` from internal/data/permissions.go. -/
def permissionsInclude : List String → String → Bool
  | [], _ => false
  | c :: rest, code => if c = code then true else permissionsInclude rest code

/-- `requirePermission`: load the identity permission set via
`Permissions.GetAllForUser` (the store call is the `getAllForUser` argument),
reject with 500 on a load failure and 403 when `code` is absent, wrapped
inside `requireActivatedUser`. -/
def requirePermission (getAllForUser : Int → Except String (List String))
    (code : String) (next : GateHandler α) : GateHandler α :=
  requireActivatedUser fun ru =>
    match getAllForUser ru.user.id with
    | Except.error _ => GateOutcome.serverError
    | Except.ok permissions =>
        if !permissionsInclude permissions code then GateOutcome.notPermitted
        else next ru

/-- C2: for every request reaching a handler wrapped in
`requirePermission code`, the wrapped body never executes unless the identity
is non-anonymous, activated and its loaded permission set contains `code`;
an anonymous identity is rejected with 401, a non-anonymous but unactivated
identity with 403 (inactive account), and an activated identity lacking
`code` with 403 (not permitted), in that gating order. -/
theorem c2_require_permission_gating {α : Type}
    (getAllForUser : Int → Except String (List String)) (code : String)
    (body : RequestUser → α) (ru : RequestUser) :
    (∀ a, requirePermission getAllForUser code
        (fun r => GateOutcome.handled (body r)) ru = GateOutcome.handled a →
      ru.isAnonymous = false ∧ ru.user.activated = true ∧
      ∃ perms, getAllForUser ru.user.id = Except.ok perms ∧
        permissionsInclude perms code = true ∧ a = body ru) ∧
    (ru.isAnonymous = true →
      requirePermission getAllForUser code
        (fun r => GateOutcome.handled (body r)) ru = GateOutcome.authenticationRequired) ∧
    (ru.isAnonymous = false → ru.user.activated = false →
      requirePermission getAllForUser code
        (fun r => GateOutcome.handled (body r)) ru = GateOutcome.inactiveAccount) ∧
    (∀ perms, ru.isAnonymous = false → ru.user.activated = true →
      getAllForUser ru.user.id = Except.ok perms → permissionsInclude perms code = false →
      requirePermission getAllForUser code
        (fun r => GateOutcome.handled (body r)) ru = GateOutcome.notPermitted) := by
  unfold requirePermission requireActivatedUser requireAuthenticatedUser
  refine ⟨?_, ?_, ?_, ?_⟩
  · intro a h
    by_cases han : ru.isAnonymous
    · simp [han] at h
    · rw [Bool.not_eq_true] at han
      simp only [han, if_neg Bool.false_ne_true] at h
      by_cases hact : ru.user.activated
      · simp only [hact, Bool.not_true, if_neg Bool.false_ne_true] at h
        cases hg : getAllForUser ru.user.id with
        | error e => rw [hg] at h; cases h
        | ok perms =>
          rw [hg] at h
          by_cases hinc : permissionsInclude perms code
          · simp only [hinc, Bool.not_true, if_neg Bool.false_ne_true] at h
            cases h
            exact ⟨han, hact, perms, rfl, hinc, rfl⟩
          · rw [Bool.not_eq_true] at hinc
            simp only [hinc, Bool.not_false, if_pos rfl] at h
            cases h
      · rw [Bool.not_eq_true] at hact
        simp only [hact, Bool.not_false, if_pos rfl] at h
        cases h
  · intro han
    simp [han]
  · intro han hact
    simp [han, hact]
  · intro perms han hact hg hinc
    simp [han, hact, hg, hinc]

/-- Concrete instantiation data for the C2 witness. -/
def c2UserEx : User :=
  { id := 7, createdAt := 0, name := "alice", email := "alice@example.com",
    password := ⟨none, some [1]⟩, activated := true, version := 1 }

def c2StoreEx : Int → Except String (List String) := fun _ =>
  Except.ok ["movies:read"]

theorem c2_require_permission_gating_witness :
    requirePermission c2StoreEx "movies:read"
      (fun r => GateOutcome.handled r.user.id) anonymousUser =
        GateOutcome.authenticationRequired ∧
    requirePermission c2StoreEx "movies:read"
      (fun r => GateOutcome.handled r.user.id) ⟨{ c2UserEx with activated := false }, false⟩ =
        GateOutcome.inactiveAccount ∧
    requirePermission c2StoreEx "movies:write"
      (fun r => GateOutcome.handled r.user.id) ⟨c2UserEx, false⟩ =
        GateOutcome.notPermitted ∧
    ((⟨c2UserEx, false⟩ : RequestUser).isAnonymous = false ∧
      (⟨c2UserEx, false⟩ : RequestUser).user.activated = true ∧
      ∃ perms, c2StoreEx (⟨c2UserEx, false⟩ : RequestUser).user.id = Except.ok perms ∧
        permissionsInclude perms "movies:read" = true ∧
        (7 : Int) = (⟨c2UserEx, false⟩ : RequestUser).user.id) := by
  refine ⟨?_, ?_, ?_, ?_⟩
  · exact (c2_require_permission_gating c2StoreEx "movies:read"
      (fun r => r.user.id) anonymousUser).2.1 (by decide)
  · exact (c2_require_permission_gating c2StoreEx "movies:read"
      (fun r => r.user.id) ⟨{ c2UserEx with activated := false }, false⟩).2.2.1
      (by decide) (by decide)
  · exact (c2_require_permission_gating c2StoreEx "movies:write"
      (fun r => r.user.id) ⟨c2UserEx, false⟩).2.2.2 ["movies:read"]
      (by decide) (by decide) rfl (by decide)
  · exact (c2_require_permission_gating c2StoreEx "movies:read"
      (fun r => r.user.id) ⟨c2UserEx, false⟩).1 7 (by decide)

/-! ## Byte-level view of strings

Go `len(s)` and `[]byte(s)` act on the UTF-8 encoding; `utf8Bytes` is that
encoding and `goLen` the byte length. -/

def charUtf8Bytes (c : Char) : List Nat :=
  let n := c.toNat
  if n < 128 then [n]
  else if n < 2048 then [192 + n / 64, 128 + n % 64]
  else if n < 65536 then [224 + n / 4096, 128 + (n / 64) % 64, 128 + n % 64]
  else [240 + n / 262144, 128 + (n / 4096) % 64, 128 + (n / 64) % 64, 128 + n % 64]

def utf8Bytes (s : String) : List Nat := s.toList.foldr (fun c acc => charUtf8Bytes c ++ acc) []

def goLen (s : String) : Nat := (utf8Bytes s).length

/-! ## Token plaintext validation (src/unnamed/part_002) -/

/-- Token scope constants from the token model source. -/
def ScopeActivation : String := "activation"

def ScopeAuthentication : String := "authentication"

/-- `ValidateTokenPlaintext`: provided and exactly 26 bytes long. -/
def ValidateTokenPlaintext (v : Validator) (tokenPlaintext : String) : Validator :=
  (v.check (decide (tokenPlaintext ≠ "")) "token" "must be provided").check
    (decide (goLen tokenPlaintext = 26)) "token" "must be 26 bytes long"

/-- Go strings.Split with a one-character separator, over the character
list: consecutive separators produce empty fields, the empty string yields
one empty field. -/
def splitChars (sep : Char) : List Char → List (List Char)
  | [] => [[]]
  | c :: rest =>
      let r := splitChars sep rest
      if c = sep then [] :: r
      else
        match r with
        | [] => [[c]]
        | g :: gs => (c :: g) :: gs

/-- Go strings.Split(s, sep) for a one-character sep. -/
def goSplit (s : String) (sep : Char) : List String :=
  (splitChars sep s.toList).map List.asString

/-! ## Middleware: authenticate (cmd/api/middleware.go) -/

/-- Failure modes of `UserModel.GetTokenUser` as seen by `authenticate`:
`data.ErrRecordNotFound` versus any other store error. -/
inductive TokenLookupErr where
  | recordNotFound
  | other (msg : String)
deriving Repr, DecidableEq

/-- The observable outcome of the `authenticate` middleware: continue to the
next handler with an identity attached to the request context, or
short-circuit with 401 (`invalidAuthenticationTokenResponse`) or 500
(`serverErrorResponse`). -/
inductive AuthOutcome where
  | next (ru : RequestUser)
  | invalidAuthenticationToken
  | serverError (msg : String)
deriving Repr, DecidableEq

/-- `authenticate`: exact case analysis on the Authorization header (the
absent header reads as "" through `r.Header.Get`); the store resolution
`UserModel.GetTokenUser` is the `getTokenUser` argument, called under the
authentication scope. -/
def authenticate (getTokenUser : String → String → Except TokenLookupErr User)
    (authorizationHeader : String) : AuthOutcome :=
  if authorizationHeader = "" then AuthOutcome.next anonymousUser
  else
    match goSplit authorizationHeader ' ' with
    | [p0, token] =>
      if p0 ≠ "Bearer" then AuthOutcome.invalidAuthenticationToken
      else if !(ValidateTokenPlaintext Validator.new token).valid then
        AuthOutcome.invalidAuthenticationToken
      else
        match getTokenUser ScopeAuthentication token with
        | Except.error TokenLookupErr.recordNotFound =>
            AuthOutcome.invalidAuthenticationToken
        | Except.error (TokenLookupErr.other msg) => AuthOutcome.serverError msg
        | Except.ok user => AuthOutcome.next ⟨user, false⟩
    | _ => AuthOutcome.invalidAuthenticationToken

/-- C3: the authentication middleware behaves by exact case analysis on the
Authorization header: absent attaches the anonymous identity and continues;
a header not of the form "Bearer token" (single space, two parts), or a
token failing the 26-byte validation, yields 401; otherwise the token is
resolved under the authentication scope — not-found yields 401, any other
resolution error 500, and success attaches the resolved (non-anonymous) user
and continues. -/
theorem c3_authenticate_cases (getTokenUser : String → String → Except TokenLookupErr User)
    (hdr token : String) (u : User) (msg : String) :
    (authenticate getTokenUser "" = AuthOutcome.next anonymousUser) ∧
    (hdr ≠ "" → (¬ ∃ t, goSplit hdr ' ' = ["Bearer", t]) →
      authenticate getTokenUser hdr = AuthOutcome.invalidAuthenticationToken) ∧
    (hdr ≠ "" → goSplit hdr ' ' = ["Bearer", token] →
      (token = "" ∨ goLen token ≠ 26) →
      authenticate getTokenUser hdr = AuthOutcome.invalidAuthenticationToken) ∧
    (hdr ≠ "" → goSplit hdr ' ' = ["Bearer", token] →
      token ≠ "" → goLen token = 26 →
      getTokenUser ScopeAuthentication token = Except.error TokenLookupErr.recordNotFound →
      authenticate getTokenUser hdr = AuthOutcome.invalidAuthenticationToken) ∧
    (hdr ≠ "" → goSplit hdr ' ' = ["Bearer", token] →
      token ≠ "" → goLen token = 26 →
      getTokenUser ScopeAuthentication token = Except.error (TokenLookupErr.other msg) →
      authenticate getTokenUser hdr = AuthOutcome.serverError msg) ∧
    (hdr ≠ "" → goSplit hdr ' ' = ["Bearer", token] →
      token ≠ "" → goLen token = 26 →
      getTokenUser ScopeAuthentication token = Except.ok u →
      authenticate getTokenUser hdr = AuthOutcome.next ⟨u, false⟩) := by
  have hval : ∀ t : String, t ≠ "" → goLen t = 26 →
      (ValidateTokenPlaintext Validator.new t).valid = true := by
    intro t h1 h2
    unfold ValidateTokenPlaintext Validator.check
    simp [h1, h2, Validator.new, Validator.valid]
  have hvalneg : ∀ t : String, (t = "" ∨ goLen t ≠ 26) →
      (ValidateTokenPlaintext Validator.new t).valid = false := by
    intro t ht
    unfold ValidateTokenPlaintext
    rcases ht with ht | ht
    · apply Validator.check_invalid_mono
      simp [ht, Validator.check, Validator.addError_not_valid]
    · have : decide (goLen t = 26) = false := by simp [ht]
      rw [this]
      exact Validator.check_false_not_valid _ _ _
  refine ⟨by simp [authenticate], ?_, ?_, ?_, ?_, ?_⟩
  · intro h1 h2
    unfold authenticate
    rw [if_neg h1]
    rcases hsp : goSplit hdr ' ' with _ | ⟨p0, _ | ⟨t, _ | ⟨p2, rest⟩⟩⟩ <;> try rfl
    by_cases hb : p0 = "Bearer"
    · exact absurd ⟨t, by rw [hsp, hb]⟩ h2
    · simp [hb]
  · intro h1 hsp ht
    unfold authenticate
    rw [if_neg h1, hsp]
    simp [hvalneg token ht]
  · intro h1 hsp ht1 ht2 hg
    unfold authenticate
    rw [if_neg h1, hsp]
    simp [hval token ht1 ht2, hg]
  · intro h1 hsp ht1 ht2 hg
    unfold authenticate
    rw [if_neg h1, hsp]
    simp [hval token ht1 ht2, hg]
  · intro h1 hsp ht1 ht2 hg
    unfold authenticate
    rw [if_neg h1, hsp]
    simp [hval token ht1 ht2, hg]

def c3UserEx : User :=
  { id := 3, createdAt := 0, name := "bob", email := "bob@example.com",
    password := ⟨none, some [2]⟩, activated := true, version := 1 }

def c3TokenEx : String := "ABCDEFGHIJKLMNOPQRSTUVWXYZ"

def c3LookupOk : String → String → Except TokenLookupErr User := fun _ _ =>
  Except.ok c3UserEx

def c3LookupMiss : String → String → Except TokenLookupErr User := fun _ _ =>
  Except.error TokenLookupErr.recordNotFound

def c3LookupFail : String → String → Except TokenLookupErr User := fun _ _ =>
  Except.error (TokenLookupErr.other "pq: boom")

theorem c3_authenticate_cases_witness :
    authenticate c3LookupOk "" = AuthOutcome.next anonymousUser ∧
    authenticate c3LookupOk "Token abc" = AuthOutcome.invalidAuthenticationToken ∧
    authenticate c3LookupOk "Bearer abc" = AuthOutcome.invalidAuthenticationToken ∧
    authenticate c3LookupMiss ("Bearer " ++ c3TokenEx) = AuthOutcome.invalidAuthenticationToken ∧
    authenticate c3LookupFail ("Bearer " ++ c3TokenEx) = AuthOutcome.serverError "pq: boom" ∧
    authenticate c3LookupOk ("Bearer " ++ c3TokenEx) = AuthOutcome.next ⟨c3UserEx, false⟩ := by
  refine ⟨(c3_authenticate_cases c3LookupOk "" "" c3UserEx "").1, ?_, ?_, ?_, ?_, ?_⟩
  · refine (c3_authenticate_cases c3LookupOk "Token abc" "" c3UserEx "").2.1 (by decide) ?_
    rintro ⟨t, ht⟩
    have h0 : (goSplit "Token abc" ' ') = ["Token", "abc"] := by decide
    rw [h0] at ht
    simp at ht
  · exact (c3_authenticate_cases c3LookupOk "Bearer abc" "abc" c3UserEx "").2.2.1
      (by decide) (by decide) (Or.inr (by decide))
  · exact (c3_authenticate_cases c3LookupMiss ("Bearer " ++ c3TokenEx) c3TokenEx c3UserEx "").2.2.2.1
      (by decide) (by decide) (by decide) (by decide) rfl
  · exact (c3_authenticate_cases c3LookupFail ("Bearer " ++ c3TokenEx) c3TokenEx c3UserEx
      "pq: boom").2.2.2.2.1 (by decide) (by decide) (by decide) (by decide) rfl
  · exact (c3_authenticate_cases c3LookupOk ("Bearer " ++ c3TokenEx) c3TokenEx c3UserEx "").2.2.2.2.2
      (by decide) (by decide) (by decide) (by decide) rfl

/-! ## MovieModel.Get and MovieModel.Delete (internal/data/movies.go)

The single-row store interaction is passed in explicitly: `scan` is the
outcome of `QueryRowContext(...).Scan` for the SELECT by id, `exec` the
outcome of `ExecContext` plus `RowsAffected` for the DELETE by id.  The
Bool in the result records whether a store query was issued at all. -/

/-- Outcome of scanning the single row of the SELECT-by-id query. -/
inductive ScanResult where
  | row (m : Movie)
  | noRows
  | fail (msg : String)
deriving Repr, DecidableEq

/-- Outcome of the DELETE statement: rows affected, or a store failure
(from either ExecContext or RowsAffected). -/
inductive ExecResult where
  | rowsAffected (n : Nat)
  | fail (msg : String)
deriving Repr, DecidableEq

/-- `MovieModel.Get`: id < 1 is rejected locally as not-found; `sql.ErrNoRows`
maps to `ErrRecordNotFound`; any other scan failure is returned unchanged. -/
def movieModelGet (scan : Int → ScanResult) (id : Int) : Except DataErr Movie × Bool :=
  if id < 1 then (Except.error DataErr.recordNotFound, false)
  else
    match scan id with
    | ScanResult.row m => (Except.ok m, true)
    | ScanResult.noRows => (Except.error DataErr.recordNotFound, true)
    | ScanResult.fail e => (Except.error (DataErr.store e), true)

/-- `MovieModel.Delete`: id < 1 is rejected locally as not-found; zero rows
affected maps to `ErrRecordNotFound`; any store failure is returned
unchanged. -/
def movieModelDelete (exec : Int → ExecResult) (id : Int) : Except DataErr Unit × Bool :=
  if id < 1 then (Except.error DataErr.recordNotFound, false)
  else
    match exec id with
    | ExecResult.fail e => (Except.error (DataErr.store e), true)
    | ExecResult.rowsAffected n =>
        if n = 0 then (Except.error DataErr.recordNotFound, true)
        else (Except.ok (), true)

/-- C8: for every id < 1, Get and Delete return not-found without issuing a
store query; a store miss in Get and zero rows affected in Delete map to the
same not-found error; any other store failure is propagated unchanged. -/
theorem c8_get_delete_not_found (scan : Int → ScanResult) (exec : Int → ExecResult)
    (id : Int) (msg : String) (n : Nat) :
    (id < 1 → movieModelGet scan id = (Except.error DataErr.recordNotFound, false)) ∧
    (id < 1 → movieModelDelete exec id = (Except.error DataErr.recordNotFound, false)) ∧
    (1 ≤ id → scan id = ScanResult.noRows →
      movieModelGet scan id = (Except.error DataErr.recordNotFound, true)) ∧
    (1 ≤ id → scan id = ScanResult.fail msg →
      movieModelGet scan id = (Except.error (DataErr.store msg), true)) ∧
    (1 ≤ id → exec id = ExecResult.rowsAffected 0 →
      movieModelDelete exec id = (Except.error DataErr.recordNotFound, true)) ∧
    (1 ≤ id → exec id = ExecResult.fail msg →
      movieModelDelete exec id = (Except.error (DataErr.store msg), true)) ∧
    (1 ≤ id → n ≠ 0 → exec id = ExecResult.rowsAffected n →
      movieModelDelete exec id = (Except.ok (), true)) := by
  have hlt : ∀ m : Int, 1 ≤ m → ¬ m < 1 := fun m h => by omega
  refine ⟨fun h => ?_, fun h => ?_, fun h hs => ?_, fun h hs => ?_,
    fun h hs => ?_, fun h hs => ?_, fun h hn hs => ?_⟩
  · simp [movieModelGet, h]
  · simp [movieModelDelete, h]
  · simp [movieModelGet, hlt id h, hs]
  · simp [movieModelGet, hlt id h, hs]
  · simp [movieModelDelete, hlt id h, hs]
  · simp [movieModelDelete, hlt id h, hs]
  · simp [movieModelDelete, hlt id h, hs, hn]

def c8MovieEx : Movie :=
  { id := 5, createdAt := 0, title := "Casablanca", year := 1942, runtime := 102,
    genres := ["drama"], version := 1 }

def c8ScanEx : Int → ScanResult := fun i =>
  if i = 5 then ScanResult.row c8MovieEx
  else if i = 6 then ScanResult.fail "pq: broken" else ScanResult.noRows

def c8ExecEx : Int → ExecResult := fun i =>
  if i = 5 then ExecResult.rowsAffected 1
  else if i = 6 then ExecResult.fail "pq: broken" else ExecResult.rowsAffected 0

theorem c8_get_delete_not_found_witness :
    movieModelGet c8ScanEx (-3) = (Except.error DataErr.recordNotFound, false) ∧
    movieModelDelete c8ExecEx 0 = (Except.error DataErr.recordNotFound, false) ∧
    movieModelGet c8ScanEx 9 = (Except.error DataErr.recordNotFound, true) ∧
    movieModelGet c8ScanEx 6 = (Except.error (DataErr.store "pq: broken"), true) ∧
    movieModelDelete c8ExecEx 9 = (Except.error DataErr.recordNotFound, true) ∧
    movieModelDelete c8ExecEx 6 = (Except.error (DataErr.store "pq: broken"), true) ∧
    movieModelDelete c8ExecEx 5 = (Except.ok (), true) :=
  ⟨(c8_get_delete_not_found c8ScanEx c8ExecEx (-3) "" 0).1 (by decide),
   (c8_get_delete_not_found c8ScanEx c8ExecEx 0 "" 0).2.1 (by decide),
   (c8_get_delete_not_found c8ScanEx c8ExecEx 9 "" 0).2.2.1 (by decide) (by decide),
   (c8_get_delete_not_found c8ScanEx c8ExecEx 6 "pq: broken" 0).2.2.2.1 (by decide) (by decide),
   (c8_get_delete_not_found c8ScanEx c8ExecEx 9 "" 0).2.2.2.2.1 (by decide) (by decide),
   (c8_get_delete_not_found c8ScanEx c8ExecEx 6 "pq: broken" 0).2.2.2.2.2.1 (by decide) (by decide),
   (c8_get_delete_not_found c8ScanEx c8ExecEx 5 "" 1).2.2.2.2.2.2 (by decide) (by decide) (by decide)⟩

/-! ## Optimistic-concurrency updates (internal/data/movies.go, users.go)

The store is a list of rows; the UPDATE statements touch every row matched
by their WHERE clause (`id = $n AND version = $m`; the id column is the
primary key, so in any reachable store at most one row matches).  `Scan` on
the RETURNING clause reads the first returned version and fails with
`sql.ErrNoRows` when nothing matched, which both models map to
`ErrEditConflict`.  The users table additionally carries the UNIQUE
`users_email_key` constraint: the statement aborts, leaving the store
unchanged, when a row it rewrites would duplicate the email of a surviving
row; `UserModel.Update` maps that abort to `ErrDuplicateEmail`. -/

/-- The SET clause of the movies UPDATE applied to one matched row. -/
def sqlUpdateMovieRow (m r : Movie) : Movie :=
  { r with
    title := m.title
    year := m.year
    runtime := m.runtime
    genres := m.genres
    version := r.version + 1 }

def moviesUpdateDB (db : List Movie) (m : Movie) : List Movie :=
  db.map fun r => if r.id = m.id ∧ r.version = m.version then sqlUpdateMovieRow m r else r

def moviesUpdateReturning (db : List Movie) (m : Movie) : List Int :=
  (db.filter fun r => decide (r.id = m.id ∧ r.version = m.version)).map
    fun r => r.version + 1

/-- `MovieModel.Update`. -/
def movieModelUpdate (db : List Movie) (m : Movie) : Except DataErr Movie × List Movie :=
  match moviesUpdateReturning db m with
  | [] => (Except.error DataErr.editConflict, moviesUpdateDB db m)
  | v :: _ => (Except.ok { m with version := v }, moviesUpdateDB db m)

/-- The SET clause of the users UPDATE applied to one matched row (only the
hash column is written for the credential). -/
def sqlUpdateUserRow (u r : User) : User :=
  { r with
    name := u.name
    email := u.email
    password := ⟨r.password.plaintext, u.password.hash⟩
    activated := u.activated
    version := r.version + 1 }

def usersUpdateDB (db : List User) (u : User) : List User :=
  db.map fun r => if r.id = u.id ∧ r.version = u.version then sqlUpdateUserRow u r else r

def usersUpdateReturning (db : List User) (u : User) : List Int :=
  (db.filter fun r => decide (r.id = u.id ∧ r.version = u.version)).map
    fun r => r.version + 1

/-- The `users_email_key` abort condition: some row is rewritten (so receives
`u.email`) while an untouched row keeps that same email. -/
def usersUpdateEmailViolation (db : List User) (u : User) : Bool :=
  (db.any fun r => decide (r.id = u.id ∧ r.version = u.version)) &&
  (db.any fun s => decide (¬(s.id = u.id ∧ s.version = u.version) ∧ s.email = u.email))

/-- `UserModel.Update`. -/
def userModelUpdate (db : List User) (u : User) : Except DataErr User × List User :=
  if usersUpdateEmailViolation db u then (Except.error DataErr.duplicateEmail, db)
  else
    match usersUpdateReturning db u with
    | [] => (Except.error DataErr.editConflict, usersUpdateDB db u)
    | v :: _ => (Except.ok { u with version := v }, usersUpdateDB db u)

/-- In a store whose key column is duplicate-free, the rows matched by a
key-constraining predicate form exactly the singleton of any known match. -/
theorem filter_single_of_nodup_key {α : Type} (key : α → Int) (p : α → Bool)
    (db : List α) (r : α) (hnd : (db.map key).Nodup) (hr : r ∈ db) (hpr : p r = true)
    (hkey : ∀ s, p s = true → key s = key r) : db.filter p = [r] := by
  induction db with
  | nil => cases hr
  | cons a rest ih =>
    rw [List.map_cons, List.nodup_cons] at hnd
    rcases List.mem_cons.mp hr with h | h
    · subst h
      rw [List.filter_cons_of_pos hpr]
      have hrest : rest.filter p = [] := by
        rw [List.filter_eq_nil_iff]
        intro s hs hps
        exact hnd.1 (hkey s hps ▸ List.mem_map_of_mem key hs)
      rw [hrest]
    · have hpa : p a = false := by
        cases hcase : p a
        · rfl
        · exact absurd ((hkey a hcase) ▸ List.mem_map_of_mem key h) hnd.1
      rw [List.filter_cons_of_neg (by simp [hpa])]
      exact ih hnd.2 h

theorem map_id_of_fix {α : Type} (l : List α) (f : α → α) (h : ∀ x ∈ l, f x = x) :
    l.map f = l := by
  induction l with
  | nil => rfl
  | cons a rest ih =>
    rw [List.map_cons, h a (List.mem_cons_self a rest),
      ih fun x hx => h x (List.mem_cons_of_mem a hx)]

theorem moviesUpdate_no_match (mdb : List Movie) (m : Movie)
    (h : ∀ x ∈ mdb, x.id = m.id → x.version ≠ m.version) :
    movieModelUpdate mdb m = (Except.error DataErr.editConflict, mdb) := by
  have hfil : (mdb.filter fun r => decide (r.id = m.id ∧ r.version = m.version)) = [] := by
    rw [List.filter_eq_nil_iff]
    intro x hx
    simp only [decide_eq_true_eq, not_and]
    exact h x hx
  have hdb : moviesUpdateDB mdb m = mdb := by
    unfold moviesUpdateDB
    apply map_id_of_fix
    intro x hx
    exact if_neg fun hc => h x hx hc.1 hc.2
  unfold movieModelUpdate moviesUpdateReturning
  rw [hfil, hdb]
  rfl

theorem moviesUpdate_success (mdb : List Movie) (m r : Movie)
    (hnd : (mdb.map Movie.id).Nodup) (hr : r ∈ mdb) (hid : r.id = m.id)
    (hv : r.version = m.version) :
    (movieModelUpdate mdb m).1 = Except.ok { m with version := m.version + 1 } ∧
    sqlUpdateMovieRow m r ∈ (movieModelUpdate mdb m).2 ∧
    (sqlUpdateMovieRow m r).version = r.version + 1 ∧
    ∀ x ∈ mdb, x.id ≠ m.id → x ∈ (movieModelUpdate mdb m).2 := by
  have hfil := filter_single_of_nodup_key Movie.id
    (fun x => decide (x.id = m.id ∧ x.version = m.version)) mdb r hnd hr
    (by simp [hid, hv])
    (fun s hs => by
      simp only [decide_eq_true_eq] at hs
      rw [hs.1, hid])
  have hret : moviesUpdateReturning mdb m = [r.version + 1] := by
    unfold moviesUpdateReturning
    rw [hfil]
    rfl
  have h1 : (movieModelUpdate mdb m).1 = Except.ok { m with version := r.version + 1 } := by
    unfold movieModelUpdate
    rw [hret]
  have h2 : (movieModelUpdate mdb m).2 = moviesUpdateDB mdb m := by
    unfold movieModelUpdate
    rw [hret]
  refine ⟨by rw [h1, hv], ?_, rfl, ?_⟩
  · rw [h2]
    unfold moviesUpdateDB
    exact List.mem_map.mpr ⟨r, hr, by simp [hid, hv]⟩
  · intro x hx hxid
    rw [h2]
    unfold moviesUpdateDB
    exact List.mem_map.mpr ⟨x, hx, by simp [hxid]⟩

theorem usersUpdate_no_match (udb : List User) (u : User)
    (h : ∀ x ∈ udb, x.id = u.id → x.version ≠ u.version) :
    userModelUpdate udb u = (Except.error DataErr.editConflict, udb) := by
  have hany : (udb.any fun r => decide (r.id = u.id ∧ r.version = u.version)) = false := by
    rw [List.any_eq_false]
    intro x hx
    simp only [decide_eq_true_eq, not_and]
    exact h x hx
  have hviol : usersUpdateEmailViolation udb u = false := by
    unfold usersUpdateEmailViolation
    rw [hany, Bool.false_and]
  have hfil : (udb.filter fun r => decide (r.id = u.id ∧ r.version = u.version)) = [] := by
    rw [List.filter_eq_nil_iff]
    intro x hx
    simp only [decide_eq_true_eq, not_and]
    exact h x hx
  have hdb : usersUpdateDB udb u = udb := by
    unfold usersUpdateDB
    apply map_id_of_fix
    intro x hx
    exact if_neg fun hc => h x hx hc.1 hc.2
  unfold userModelUpdate usersUpdateReturning
  rw [hviol, hfil, hdb]
  rfl

theorem usersUpdate_duplicate (udb : List User) (u ru s : User)
    (hru : ru ∈ udb) (hid : ru.id = u.id) (hv : ru.version = u.version)
    (hs : s ∈ udb) (hnm : ¬(s.id = u.id ∧ s.version = u.version))
    (hse : s.email = u.email) :
    userModelUpdate udb u = (Except.error DataErr.duplicateEmail, udb) := by
  have hviol : usersUpdateEmailViolation udb u = true := by
    unfold usersUpdateEmailViolation
    rw [Bool.and_eq_true]
    constructor
    · exact List.any_eq_true.mpr ⟨ru, hru, by simp [hid, hv]⟩
    · refine List.any_eq_true.mpr ⟨s, hs, ?_⟩
      simp only [decide_eq_true_eq]
      exact ⟨hnm, hse⟩
  unfold userModelUpdate
  rw [hviol]
  rfl

theorem usersUpdate_success (udb : List User) (u ru : User)
    (hnd : (udb.map User.id).Nodup) (hru : ru ∈ udb) (hid : ru.id = u.id)
    (hv : ru.version = u.version)
    (hemail : ∀ x ∈ udb, x.id ≠ u.id → x.email ≠ u.email) :
    (userModelUpdate udb u).1 = Except.ok { u with version := u.version + 1 } ∧
    sqlUpdateUserRow u ru ∈ (userModelUpdate udb u).2 ∧
    (sqlUpdateUserRow u ru).version = ru.version + 1 ∧
    ∀ x ∈ udb, x.id ≠ u.id → x ∈ (userModelUpdate udb u).2 := by
  have hviol : usersUpdateEmailViolation udb u = false := by
    unfold usersUpdateEmailViolation
    have hany2 : (udb.any fun s =>
        decide (¬(s.id = u.id ∧ s.version = u.version) ∧ s.email = u.email)) = false := by
      rw [List.any_eq_false]
      intro x hx
      simp only [decide_eq_true_eq, not_and]
      intro hnm he
      by_cases hxid : x.id = u.id
      · have hxr : x = ru := List.inj_on_of_nodup_map hnd hx hru (by rw [hxid, hid])
        exact hnm hxid (by rw [hxr, hv])
      · exact hemail x hx hxid he
    rw [hany2, Bool.and_false]
  have hfil := filter_single_of_nodup_key User.id
    (fun x => decide (x.id = u.id ∧ x.version = u.version)) udb ru hnd hru
    (by simp [hid, hv])
    (fun s hs => by
      simp only [decide_eq_true_eq] at hs
      rw [hs.1, hid])
  have hret : usersUpdateReturning udb u = [ru.version + 1] := by
    unfold usersUpdateReturning
    rw [hfil]
    rfl
  have h1 : (userModelUpdate udb u).1 = Except.ok { u with version := ru.version + 1 } := by
    unfold userModelUpdate
    rw [hviol, hret]
    rfl
  have h2 : (userModelUpdate udb u).2 = usersUpdateDB udb u := by
    unfold userModelUpdate
    rw [hviol, hret]
    rfl
  refine ⟨by rw [h1, hv], ?_, rfl, ?_⟩
  · rw [h2]
    unfold usersUpdateDB
    exact List.mem_map.mpr ⟨ru, hru, by simp [hid, hv]⟩
  · intro x hx hxid
    rw [h2]
    unfold usersUpdateDB
    exact List.mem_map.mpr ⟨x, hx, by simp [hxid]⟩

instance {ε α : Type} [DecidableEq ε] [DecidableEq α] : DecidableEq (Except ε α) :=
  fun a b =>
    match a, b with
    | Except.error e1, Except.error e2 =>
        if h : e1 = e2 then isTrue (by rw [h])
        else isFalse fun hc => by cases hc; exact h rfl
    | Except.ok v1, Except.ok v2 =>
        if h : v1 = v2 then isTrue (by rw [h])
        else isFalse fun hc => by cases hc; exact h rfl
    | Except.error _, Except.ok _ => isFalse fun hc => by cases hc
    | Except.ok _, Except.error _ => isFalse fun hc => by cases hc

/-- C1 (amended): for every stored Movie/User row and update call carrying a
version: if the carried version differs from the stored version for that id
(or no row with that id exists), Update returns the edit-conflict error and
the store is unchanged; if the carried version equals the stored version the
update succeeds and the stored version increases by exactly 1 — except that
a User update whose new email equals the email of another stored user is
rejected with the duplicate-email error, again leaving the store unchanged.
Stores are constrained by the primary key (duplicate-free id column). -/
theorem c1_update_version_protocol
    (mdb : List Movie) (m r : Movie) (udb : List User) (u ru s : User) :
    ((∀ x ∈ mdb, x.id = m.id → x.version ≠ m.version) →
      movieModelUpdate mdb m = (Except.error DataErr.editConflict, mdb)) ∧
    ((mdb.map Movie.id).Nodup → r ∈ mdb → r.id = m.id → r.version = m.version →
      (movieModelUpdate mdb m).1 = Except.ok { m with version := m.version + 1 } ∧
      sqlUpdateMovieRow m r ∈ (movieModelUpdate mdb m).2 ∧
      (sqlUpdateMovieRow m r).version = r.version + 1 ∧
      ∀ x ∈ mdb, x.id ≠ m.id → x ∈ (movieModelUpdate mdb m).2) ∧
    ((∀ x ∈ udb, x.id = u.id → x.version ≠ u.version) →
      userModelUpdate udb u = (Except.error DataErr.editConflict, udb)) ∧
    (ru ∈ udb → ru.id = u.id → ru.version = u.version →
      s ∈ udb → ¬(s.id = u.id ∧ s.version = u.version) → s.email = u.email →
      userModelUpdate udb u = (Except.error DataErr.duplicateEmail, udb)) ∧
    ((udb.map User.id).Nodup → ru ∈ udb → ru.id = u.id → ru.version = u.version →
      (∀ x ∈ udb, x.id ≠ u.id → x.email ≠ u.email) →
      (userModelUpdate udb u).1 = Except.ok { u with version := u.version + 1 } ∧
      sqlUpdateUserRow u ru ∈ (userModelUpdate udb u).2 ∧
      (sqlUpdateUserRow u ru).version = ru.version + 1 ∧
      ∀ x ∈ udb, x.id ≠ u.id → x ∈ (userModelUpdate udb u).2) :=
  ⟨moviesUpdate_no_match mdb m,
   fun hnd hr hid hv => moviesUpdate_success mdb m r hnd hr hid hv,
   usersUpdate_no_match udb u,
   fun h1 h2 h3 h4 h5 h6 => usersUpdate_duplicate udb u ru s h1 h2 h3 h4 h5 h6,
   fun hnd hru hid hv he => usersUpdate_success udb u ru hnd hru hid hv he⟩

def c1UserA : User :=
  { id := 1, createdAt := 0, name := "alice", email := "alice@example.com",
    password := ⟨none, some [1]⟩, activated := true, version := 1 }

def c1UserB : User :=
  { id := 2, createdAt := 0, name := "bob", email := "bob@example.com",
    password := ⟨none, some [2]⟩, activated := true, version := 1 }

/-- The update submitted for user B, carrying the current stored version but
switching the email to the one user A already holds. -/
def c1SubmittedEx : User := { c1UserB with email := "alice@example.com" }

/-- C1 counterexample: a User update carrying exactly the stored version does
not succeed — it hits the users unique-email constraint and returns the
duplicate-email error (store unchanged), refuting the claim that a matching
carried version always makes Update succeed and bump the version by 1. -/
theorem c1_counterexample :
    c1UserB ∈ [c1UserA, c1UserB] ∧ c1UserB.id = c1SubmittedEx.id ∧
    c1UserB.version = c1SubmittedEx.version ∧
    userModelUpdate [c1UserA, c1UserB] c1SubmittedEx =
      (Except.error DataErr.duplicateEmail, [c1UserA, c1UserB]) := by decide

def c1MovieEx : Movie :=
  { id := 1, createdAt := 0, title := "Casablanca", year := 1942, runtime := 102,
    genres := ["drama"], version := 3 }

def c1MovieStale : Movie := { c1MovieEx with version := 2, title := "Casablanca II" }

def c1MovieNew : Movie := { c1MovieEx with title := "Casablanca Redux" }

def c1UserStale : User := { c1UserA with version := 99 }

def c1UserBNew : User := { c1UserB with name := "bobby" }

theorem c1_update_version_protocol_witness :
    movieModelUpdate [c1MovieEx] c1MovieStale =
      (Except.error DataErr.editConflict, [c1MovieEx]) ∧
    ((movieModelUpdate [c1MovieEx] c1MovieNew).1 =
        Except.ok { c1MovieNew with version := c1MovieNew.version + 1 } ∧
      sqlUpdateMovieRow c1MovieNew c1MovieEx ∈ (movieModelUpdate [c1MovieEx] c1MovieNew).2 ∧
      (sqlUpdateMovieRow c1MovieNew c1MovieEx).version = c1MovieEx.version + 1 ∧
      ∀ x ∈ [c1MovieEx], x.id ≠ c1MovieNew.id →
        x ∈ (movieModelUpdate [c1MovieEx] c1MovieNew).2) ∧
    userModelUpdate [c1UserA] c1UserStale =
      (Except.error DataErr.editConflict, [c1UserA]) ∧
    userModelUpdate [c1UserA, c1UserB] c1SubmittedEx =
      (Except.error DataErr.duplicateEmail, [c1UserA, c1UserB]) ∧
    ((userModelUpdate [c1UserA, c1UserB] c1UserBNew).1 =
        Except.ok { c1UserBNew with version := c1UserBNew.version + 1 } ∧
      sqlUpdateUserRow c1UserBNew c1UserB ∈
        (userModelUpdate [c1UserA, c1UserB] c1UserBNew).2 ∧
      (sqlUpdateUserRow c1UserBNew c1UserB).version = c1UserB.version + 1 ∧
      ∀ x ∈ [c1UserA, c1UserB], x.id ≠ c1UserBNew.id →
        x ∈ (userModelUpdate [c1UserA, c1UserB] c1UserBNew).2) :=
  ⟨(c1_update_version_protocol [c1MovieEx] c1MovieStale c1MovieEx [] c1UserA c1UserA
      c1UserA).1 (by decide),
   (c1_update_version_protocol [c1MovieEx] c1MovieNew c1MovieEx [] c1UserA c1UserA
      c1UserA).2.1 (by decide) (by decide) (by decide) (by decide),
   (c1_update_version_protocol [] c1MovieEx c1MovieEx [c1UserA] c1UserStale c1UserA
      c1UserA).2.2.1 (by decide),
   (c1_update_version_protocol [] c1MovieEx c1MovieEx [c1UserA, c1UserB] c1SubmittedEx
      c1UserB c1UserA).2.2.2.1 (by decide) (by decide) (by decide) (by decide)
      (by decide) (by decide),
   (c1_update_version_protocol [] c1MovieEx c1MovieEx [c1UserA, c1UserB] c1UserBNew
      c1UserB c1UserA).2.2.2.2 (by decide) (by decide) (by decide) (by decide)
      (by decide)⟩

/-! ## createActivationTokenHandler (cmd/api/tokens.go) -/

/-- Response of the activation-token resend endpoint as the client observes
it: status code family plus body content. -/
inductive TokensResp where
  | failedValidation (errors : List (String × String))
  | serverError (msg : String)
  | accepted (message : String)
deriving Repr, DecidableEq

/-- `ValidateEmail` from internal/data/users.go; the `validator.Matches`
regex test against EmailRX lives in the missing validator package and is
modelled from the spec as the abstract syntactic-validity predicate
`emailValid`. -/
def ValidateEmail (emailValid : String → Bool) (v : Validator) (email : String) : Validator :=
  (v.check (decide (email ≠ "")) "email" "must be provided").check
    (emailValid email) "email" "must be a valid email address"

/-- `UserModel.GetByEmail`: the unique-email store lookup over a list of
rows; no row maps to `ErrRecordNotFound`. -/
def userModelGetByEmail (db : List User) (email : String) : Except DataErr User :=
  match db.find? fun r => decide (r.email = email) with
  | some u => Except.ok u
  | none => Except.error DataErr.recordNotFound

/-- `createActivationTokenHandler`: validate the email, look the user up by
email (not-found becomes a 422 naming the email field), reject
already-activated accounts with a 422, and otherwise issue a token and
respond 202 with the generic acceptance message.  Token generation and the
background email send always succeed in this model (their failure paths are
500 and logging, and play no role in the claims). -/
def createActivationTokenHandler (emailValid : String → Bool) (db : List User)
    (email : String) : TokensResp :=
  let v := ValidateEmail emailValid Validator.new email
  if !v.valid then TokensResp.failedValidation v.errors
  else
    match userModelGetByEmail db email with
    | Except.error DataErr.recordNotFound =>
        TokensResp.failedValidation
          ((v.addError "email" "no user found with this email address").errors)
    | Except.error _ =>
        TokensResp.serverError
          "the server encountered a problem and could not process your request"
    | Except.ok user =>
        if user.activated then
          TokensResp.failedValidation
            ((v.addError "email" "user account is already activated").errors)
        else
          TokensResp.accepted
            "an email will be sent to you containing the activation instructions"

def c5EmailValidEx : String → Bool := fun _ => true

def c5UserEx : User :=
  { id := 4, createdAt := 0, name := "carol", email := "carol@example.com",
    password := ⟨none, some [3]⟩, activated := false, version := 1 }

/-- C5 counterexample: the same syntactically valid email produces a 422
validation response naming the email field on a store without the account,
and a 202 acceptance on a store with the (unactivated) account — the two
responses differ, so the endpoint leaks account existence, refuting the
claim that the response is identical regardless of registration. -/
theorem c5_counterexample :
    createActivationTokenHandler c5EmailValidEx [] "carol@example.com" =
      TokensResp.failedValidation
        [("email", "no user found with this email address")] ∧
    createActivationTokenHandler c5EmailValidEx [c5UserEx] "carol@example.com" =
      TokensResp.accepted
        "an email will be sent to you containing the activation instructions" ∧
    createActivationTokenHandler c5EmailValidEx [] "carol@example.com" ≠
      createActivationTokenHandler c5EmailValidEx [c5UserEx] "carol@example.com" := by
  decide

/-- C5 (amended): for every syntactically valid email submitted to
POST /v1/tokens/activation, the response depends on the account state: an
email with no account receives a 422 naming the email field with
"no user found with this email address" (so account existence is
observable); an already-activated account receives a 422 "user account is
already activated"; only an existing unactivated account receives the 202
generic acceptance message. -/
theorem c5_activation_token_responses (emailValid : String → Bool) (db : List User)
    (email : String) (u : User) :
    (emailValid email = true → email ≠ "" →
      userModelGetByEmail db email = Except.error DataErr.recordNotFound →
      createActivationTokenHandler emailValid db email =
        TokensResp.failedValidation
          [("email", "no user found with this email address")]) ∧
    (emailValid email = true → email ≠ "" →
      userModelGetByEmail db email = Except.ok u → u.activated = true →
      createActivationTokenHandler emailValid db email =
        TokensResp.failedValidation [("email", "user account is already activated")]) ∧
    (emailValid email = true → email ≠ "" →
      userModelGetByEmail db email = Except.ok u → u.activated = false →
      createActivationTokenHandler emailValid db email =
        TokensResp.accepted
          "an email will be sent to you containing the activation instructions") := by
  have hval : emailValid email = true → email ≠ "" →
      ValidateEmail emailValid Validator.new email = Validator.new := by
    intro h1 h2
    unfold ValidateEmail Validator.check
    simp [h1, h2]
  refine ⟨fun h1 h2 hg => ?_, fun h1 h2 hg ha => ?_, fun h1 h2 hg ha => ?_⟩
  · unfold createActivationTokenHandler
    rw [hval h1 h2, hg]
    simp [Validator.new, Validator.valid, Validator.addError]
  · unfold createActivationTokenHandler
    rw [hval h1 h2, hg]
    simp [Validator.new, Validator.valid, Validator.addError, ha]
  · unfold createActivationTokenHandler
    rw [hval h1 h2, hg]
    simp [Validator.new, Validator.valid, Validator.addError, ha]

def c5ActivatedUserEx : User := { c5UserEx with activated := true }

theorem c5_activation_token_responses_witness :
    createActivationTokenHandler c5EmailValidEx [] "carol@example.com" =
      TokensResp.failedValidation
        [("email", "no user found with this email address")] ∧
    createActivationTokenHandler c5EmailValidEx [c5ActivatedUserEx] "carol@example.com" =
      TokensResp.failedValidation [("email", "user account is already activated")] ∧
    createActivationTokenHandler c5EmailValidEx [c5UserEx] "carol@example.com" =
      TokensResp.accepted
        "an email will be sent to you containing the activation instructions" :=
  ⟨(c5_activation_token_responses c5EmailValidEx [] "carol@example.com" c5UserEx).1
      rfl (by decide) (by decide),
   (c5_activation_token_responses c5EmailValidEx [c5ActivatedUserEx] "carol@example.com"
      c5ActivatedUserEx).2.1 rfl (by decide) (by decide) (by decide),
   (c5_activation_token_responses c5EmailValidEx [c5UserEx] "carol@example.com"
      c5UserEx).2.2 rfl (by decide) (by decide) (by decide)⟩

/-! ## Credential model (internal/data/users.go)

The bcrypt primitive is external library code; it enters the model as a
`Bcrypt` record, and the theorems constrain it only through the contract of
the library (a hash it produced verifies against the hashed plaintext and
mismatches every other plaintext). -/

/-- Outcome of `bcrypt.CompareHashAndPassword`: success, the intrinsic
`ErrMismatchedHashAndPassword`, or any other failure (corrupt hash and the
like). -/
inductive BcryptCompare where
  | ok
  | mismatched
  | failure (msg : String)
deriving Repr, DecidableEq

structure Bcrypt where
  generateFromPassword : String → Nat → Except String (List Nat)
  compareHashAndPassword : Option (List Nat) → String → BcryptCompare

/-- `password.HashPassword`: bcrypt-hash the plaintext at cost 12 and store
both the plaintext and the hash in the struct; a generation failure is
returned as the error. -/
def passwordHashPassword (B : Bcrypt) (plaintextPassword : String) :
    Except String Password :=
  match B.generateFromPassword plaintextPassword 12 with
  | Except.error e => Except.error e
  | Except.ok hash => Except.ok ⟨some plaintextPassword, some hash⟩

/-- `password.Matches` as the Go (bool, error) pair: the intrinsic mismatch
maps to (false, nil); any other comparison failure is surfaced as the error
with a false bool. -/
def passwordMatches (B : Bcrypt) (p : Password) (plaintextPassword : String) :
    Bool × Option String :=
  match B.compareHashAndPassword p.hash plaintextPassword with
  | BcryptCompare.ok => (true, none)
  | BcryptCompare.mismatched => (false, none)
  | BcryptCompare.failure e => (false, some e)

/-- C7: under the bcrypt contract (a produced hash verifies its own
plaintext and mismatches any other), Matches on the stored hash produced by
HashPassword(P) returns (true, nil); for any other plaintext it returns
(false, nil); the intrinsic mismatch outcome maps to (false, nil) while any
other comparison failure surfaces as a non-nil error distinct from a
mismatch. -/
theorem c7_password_matches (B : Bcrypt) (P P2 : String) (p p2 : Password) (e : String)
    (hgood : ∀ pw h, B.generateFromPassword pw 12 = Except.ok h →
      B.compareHashAndPassword (some h) pw = BcryptCompare.ok)
    (hdiff : ∀ pw pw2 h, B.generateFromPassword pw 12 = Except.ok h → pw2 ≠ pw →
      B.compareHashAndPassword (some h) pw2 = BcryptCompare.mismatched) :
    (passwordHashPassword B P = Except.ok p → passwordMatches B p P = (true, none)) ∧
    (passwordHashPassword B P = Except.ok p → P2 ≠ P →
      passwordMatches B p P2 = (false, none)) ∧
    (B.compareHashAndPassword p2.hash P = BcryptCompare.mismatched →
      passwordMatches B p2 P = (false, none)) ∧
    (B.compareHashAndPassword p2.hash P = BcryptCompare.failure e →
      passwordMatches B p2 P = (false, some e)) := by
  refine ⟨fun hp => ?_, fun hp hne => ?_, fun hc => ?_, fun hc => ?_⟩
  · unfold passwordHashPassword at hp
    cases hg : B.generateFromPassword P 12 with
    | error err => rw [hg] at hp; cases hp
    | ok h =>
      rw [hg] at hp
      cases hp
      unfold passwordMatches
      rw [hgood P h hg]
  · unfold passwordHashPassword at hp
    cases hg : B.generateFromPassword P 12 with
    | error err => rw [hg] at hp; cases hp
    | ok h =>
      rw [hg] at hp
      cases hp
      unfold passwordMatches
      rw [hdiff P P2 h hg hne]
  · unfold passwordMatches
    rw [hc]
  · unfold passwordMatches
    rw [hc]

/-- Character codes of a string; injective, which makes the toy bcrypt of
the witness satisfy the contract. -/
def strCodes (s : String) : List Nat := s.toList.map Char.toNat

theorem charToNat_inj : ∀ a b : Char, a.toNat = b.toNat → a = b := by
  intro a b h
  apply Char.eq_of_val_eq
  apply UInt32.eq_of_val_eq
  apply Fin.ext
  exact h

theorem strCodes_inj : ∀ a b : String, strCodes a = strCodes b → a = b := by
  intro a b h
  rw [← String.toList_inj]
  exact List.map_injective_iff.mpr charToNat_inj h

/-- A toy instantiation of the bcrypt record that provably satisfies the
contract, used only to witness the C7 theorem. -/
def toyBcrypt : Bcrypt where
  generateFromPassword := fun pw _ => Except.ok (strCodes pw)
  compareHashAndPassword := fun oh pw =>
    match oh with
    | none => BcryptCompare.failure "crypto/bcrypt: hashedSecret too short to be a bcrypted password"
    | some h => if h = strCodes pw then BcryptCompare.ok else BcryptCompare.mismatched

theorem toyBcrypt_good : ∀ pw h, toyBcrypt.generateFromPassword pw 12 = Except.ok h →
    toyBcrypt.compareHashAndPassword (some h) pw = BcryptCompare.ok := by
  intro pw h hg
  cases hg
  simp [toyBcrypt]

theorem toyBcrypt_diff : ∀ pw pw2 h, toyBcrypt.generateFromPassword pw 12 = Except.ok h →
    pw2 ≠ pw → toyBcrypt.compareHashAndPassword (some h) pw2 = BcryptCompare.mismatched := by
  intro pw pw2 h hg hne
  cases hg
  have : strCodes pw ≠ strCodes pw2 := fun hc => hne (strCodes_inj pw pw2 hc).symm
  simp [toyBcrypt, this]

theorem c7_password_matches_witness :
    (passwordHashPassword toyBcrypt "pa55word!" = Except.ok ⟨some "pa55word!", some (strCodes "pa55word!")⟩) ∧
    passwordMatches toyBcrypt ⟨some "pa55word!", some (strCodes "pa55word!")⟩ "pa55word!" = (true, none) ∧
    passwordMatches toyBcrypt ⟨some "pa55word!", some (strCodes "pa55word!")⟩ "pa55word2" = (false, none) ∧
    passwordMatches toyBcrypt ⟨none, none⟩ "pa55word!" =
      (false, some "crypto/bcrypt: hashedSecret too short to be a bcrypted password") :=
  ⟨rfl,
   (c7_password_matches toyBcrypt "pa55word!" "pa55word2"
      ⟨some "pa55word!", some (strCodes "pa55word!")⟩ ⟨none, none⟩ ""
      toyBcrypt_good toyBcrypt_diff).1 rfl,
   (c7_password_matches toyBcrypt "pa55word!" "pa55word2"
      ⟨some "pa55word!", some (strCodes "pa55word!")⟩ ⟨none, none⟩ ""
      toyBcrypt_good toyBcrypt_diff).2.1 rfl (by decide),
   (c7_password_matches toyBcrypt "pa55word!" "pa55word2"
      ⟨some "pa55word!", some (strCodes "pa55word!")⟩ ⟨none, none⟩
      "crypto/bcrypt: hashedSecret too short to be a bcrypted password"
      toyBcrypt_good toyBcrypt_diff).2.2.2 rfl⟩

/-! ## Rate limiting middleware (cmd/api/middleware.go)

The per-IP limiter comes from the external x/time/rate library: a token
bucket holding at most `burst` tokens that refills at `rps` tokens per
second; `Allow` consumes one token when at least one is available and
otherwise denies without consuming.  Time is modelled as rational seconds.
The per-IP map guarded by the mutex is modelled as a function from IP to an
optional limiter (requests are serialised by that mutex; the background
eviction sweep only bounds memory and does not change the answer for a live
client, so it is not part of the step function). -/

structure Limiter where
  tokens : ℚ
  last : ℚ
deriving DecidableEq

structure LimiterConfig where
  rps : ℚ
  burst : ℕ
  enabled : Bool

/-- `rate.NewLimiter` as first observed at time `now`: a full bucket. -/
def Limiter.new (cfg : LimiterConfig) (now : ℚ) : Limiter :=
  ⟨(cfg.burst : ℚ), now⟩

/-- Token count after advancing the bucket to `now`. -/
def Limiter.advance (lim : Limiter) (cfg : LimiterConfig) (now : ℚ) : ℚ :=
  min (cfg.burst : ℚ) (lim.tokens + (now - lim.last) * cfg.rps)

/-- `Limiter.Allow` at time `now`: consume one token when at least one is
available after refill, otherwise deny without consuming. -/
def Limiter.allow (lim : Limiter) (cfg : LimiterConfig) (now : ℚ) : Bool × Limiter :=
  if 1 ≤ lim.advance cfg now then (true, ⟨lim.advance cfg now - 1, now⟩)
  else (false, lim)

/-- The per-IP limiter map. -/
def ClientMap : Type := String → Option Limiter

/-- One request through the `rateLimit` middleware: when the limiter is
enabled, look up (or create, with a full bucket) the limiter for the client
IP and consult `Allow` — a denial answers 429 and stops, captured by the
`false` verdict; when disabled, the whole check is skipped. -/
def rateLimitStep (cfg : LimiterConfig) (clients : ClientMap) (ip : String) (now : ℚ) :
    Bool × ClientMap :=
  if cfg.enabled then
    let lim := match clients ip with
      | none => Limiter.new cfg now
      | some l => l
    let r := lim.allow cfg now
    (r.1, fun j => if j = ip then some r.2 else clients j)
  else (true, clients)

/-- The client-map state after `k` consecutive requests from `ip` at time
`now`. -/
def rateLimitIterate (cfg : LimiterConfig) (clients : ClientMap) (ip : String) (now : ℚ) :
    ℕ → ClientMap
  | 0 => clients
  | k + 1 => (rateLimitStep cfg (rateLimitIterate cfg clients ip now k) ip now).2

/-- The limiter the next request from `ip` will consult: the stored one, or
a fresh full bucket if the IP has not been seen. -/
def effectiveLimiter (cfg : LimiterConfig) (m : ClientMap) (ip : String) (now : ℚ) : Limiter :=
  match m ip with
  | none => Limiter.new cfg now
  | some l => l

theorem rateLimitStep_effective (cfg : LimiterConfig) (m : ClientMap) (ip : String)
    (now : ℚ) (hen : cfg.enabled = true) :
    rateLimitStep cfg m ip now =
      ((effectiveLimiter cfg m ip now |>.allow cfg now).1,
        fun j => if j = ip then some (effectiveLimiter cfg m ip now |>.allow cfg now).2
          else m j) := by
  unfold rateLimitStep effectiveLimiter
  rw [if_pos hen]

theorem advance_at_same_time (cfg : LimiterConfig) (t x : ℚ) (hx : x ≤ (cfg.burst : ℚ)) :
    Limiter.advance ⟨x, t⟩ cfg t = x := by
  show min (cfg.burst : ℚ) (x + (t - t) * cfg.rps) = x
  have hz : (t - t) * cfg.rps = 0 := by ring
  rw [hz, add_zero]
  exact min_eq_right hx

theorem rateLimitIterate_invariant (cfg : LimiterConfig) (clients : ClientMap)
    (ip : String) (now : ℚ) (hen : cfg.enabled = true) (hfresh : clients ip = none) :
    ∀ k : ℕ, k ≤ cfg.burst →
      effectiveLimiter cfg (rateLimitIterate cfg clients ip now k) ip now =
        ⟨(cfg.burst : ℚ) - (k : ℚ), now⟩ := by
  intro k
  induction k with
  | zero =>
    intro _
    unfold rateLimitIterate effectiveLimiter
    rw [hfresh]
    simp [Limiter.new]
  | succ n ih =>
    intro hle
    have hn : n ≤ cfg.burst := Nat.le_of_succ_le hle
    have hlt : (n : ℚ) + 1 ≤ (cfg.burst : ℚ) := by exact_mod_cast hle
    have hinv := ih hn
    have hadv : Limiter.advance ⟨(cfg.burst : ℚ) - (n : ℚ), now⟩ cfg now
        = (cfg.burst : ℚ) - (n : ℚ) :=
      advance_at_same_time cfg now _ (by linarith [Nat.cast_nonneg (α := ℚ) n])
    have hallow : Limiter.allow ⟨(cfg.burst : ℚ) - (n : ℚ), now⟩ cfg now
        = (true, ⟨(cfg.burst : ℚ) - (n : ℚ) - 1, now⟩) := by
      unfold Limiter.allow
      rw [hadv, if_pos (by linarith)]
    have hmap : (rateLimitStep cfg (rateLimitIterate cfg clients ip now n) ip now).2 ip
        = some ⟨(cfg.burst : ℚ) - (n : ℚ) - 1, now⟩ := by
      rw [rateLimitStep_effective cfg _ ip now hen]
      show (if ip = ip then some ((effectiveLimiter cfg
        (rateLimitIterate cfg clients ip now n) ip now).allow cfg now).2
        else rateLimitIterate cfg clients ip now n ip) = _
      rw [if_pos rfl, hinv, hallow]
    show effectiveLimiter cfg
      (rateLimitStep cfg (rateLimitIterate cfg clients ip now n) ip now).2 ip now = _
    unfold effectiveLimiter
    rw [hmap]
    show (⟨(cfg.burst : ℚ) - (n : ℚ) - 1, now⟩ : Limiter) = _
    congr 1
    push_cast
    ring

/-- C9: with the limiter enabled at rate R > 0 and burst B ≥ 1, a fresh
client IP gets exactly B immediately consecutive requests through the
middleware, the (B+1)-th is denied (the 429 short-circuit, so the request
never reaches downstream), one more request at any time at least 1/R
seconds later passes again, and the limiter state of every other client is
untouched; with the limiter disabled the check is skipped entirely and
every request continues downstream with the state unchanged. -/
theorem c9_rate_limit (cfg : LimiterConfig) (clients : ClientMap) (ip : String)
    (now later : ℚ) (hen : cfg.enabled = true) (hfresh : clients ip = none)
    (hrps : 0 < cfg.rps) (hburst : 1 ≤ cfg.burst)
    (hwait : now + 1 / cfg.rps ≤ later) :
    (∀ k : ℕ, k < cfg.burst →
      (rateLimitStep cfg (rateLimitIterate cfg clients ip now k) ip now).1 = true) ∧
    (rateLimitStep cfg (rateLimitIterate cfg clients ip now cfg.burst) ip now).1 = false ∧
    (rateLimitStep cfg (rateLimitIterate cfg clients ip now cfg.burst) ip later).1 = true ∧
    (∀ k : ℕ, ∀ j, j ≠ ip →
      rateLimitIterate cfg clients ip now k j = clients j) ∧
    (∀ (cfg2 : LimiterConfig) (m : ClientMap) (ip2 : String) (t : ℚ),
      cfg2.enabled = false → rateLimitStep cfg2 m ip2 t = (true, m)) := by
  have hB0 : effectiveLimiter cfg (rateLimitIterate cfg clients ip now cfg.burst) ip now =
      ⟨(cfg.burst : ℚ) - (cfg.burst : ℚ), now⟩ :=
    rateLimitIterate_invariant cfg clients ip now hen hfresh cfg.burst (le_refl _)
  have hb1 : (1 : ℚ) ≤ (cfg.burst : ℚ) := by exact_mod_cast hburst
  refine ⟨?_, ?_, ?_, ?_, ?_⟩
  · intro k hk
    have hinv := rateLimitIterate_invariant cfg clients ip now hen hfresh k
      (Nat.le_of_lt hk)
    have hklt : (k : ℚ) + 1 ≤ (cfg.burst : ℚ) := by exact_mod_cast hk
    have hadv : Limiter.advance ⟨(cfg.burst : ℚ) - (k : ℚ), now⟩ cfg now
        = (cfg.burst : ℚ) - (k : ℚ) :=
      advance_at_same_time cfg now _ (by linarith [Nat.cast_nonneg (α := ℚ) k])
    rw [rateLimitStep_effective cfg _ ip now hen]
    show ((effectiveLimiter cfg (rateLimitIterate cfg clients ip now k) ip now).allow
      cfg now).1 = true
    rw [hinv]
    unfold Limiter.allow
    rw [hadv, if_pos (by linarith)]
  · rw [rateLimitStep_effective cfg _ ip now hen]
    show ((effectiveLimiter cfg (rateLimitIterate cfg clients ip now cfg.burst) ip
      now).allow cfg now).1 = false
    rw [hB0]
    have hadv : Limiter.advance ⟨(cfg.burst : ℚ) - (cfg.burst : ℚ), now⟩ cfg now
        = (cfg.burst : ℚ) - (cfg.burst : ℚ) :=
      advance_at_same_time cfg now _ (by linarith)
    unfold Limiter.allow
    rw [hadv, if_neg (by linarith)]
  · have hmapB : rateLimitIterate cfg clients ip now cfg.burst ip = some ⟨0, now⟩ := by
      have h := hB0
      unfold effectiveLimiter at h
      cases hc : rateLimitIterate cfg clients ip now cfg.burst ip with
      | none =>
        rw [hc] at h
        exfalso
        have htok : (cfg.burst : ℚ) = (cfg.burst : ℚ) - (cfg.burst : ℚ) :=
          congrArg Limiter.tokens h
        linarith
      | some l =>
        rw [hc] at h
        have h2 : l = ⟨(cfg.burst : ℚ) - (cfg.burst : ℚ), now⟩ := h
        rw [h2]
        congr 2
        exact sub_self _
    rw [rateLimitStep_effective cfg _ ip later hen]
    show ((effectiveLimiter cfg (rateLimitIterate cfg clients ip now cfg.burst) ip
      later).allow cfg later).1 = true
    unfold effectiveLimiter
    rw [hmapB]
    show (Limiter.allow ⟨0, now⟩ cfg later).1 = true
    have hadv2 : (1 : ℚ) ≤ Limiter.advance ⟨0, now⟩ cfg later := by
      show (1 : ℚ) ≤ min (cfg.burst : ℚ) (0 + (later - now) * cfg.rps)
      apply le_min hb1
      rw [zero_add]
      have h1 : 1 / cfg.rps ≤ later - now := by linarith
      calc (1 : ℚ) = (1 / cfg.rps) * cfg.rps := by field_simp
      _ ≤ (later - now) * cfg.rps := mul_le_mul_of_nonneg_right h1 (le_of_lt hrps)
    unfold Limiter.allow
    rw [if_pos hadv2]
  · intro k
    induction k with
    | zero => intro j hj; rfl
    | succ n ih =>
      intro j hj
      show (rateLimitStep cfg (rateLimitIterate cfg clients ip now n) ip now).2 j
        = clients j
      rw [rateLimitStep_effective cfg _ ip now hen]
      show (if j = ip then some ((effectiveLimiter cfg
        (rateLimitIterate cfg clients ip now n) ip now).allow cfg now).2
        else rateLimitIterate cfg clients ip now n j) = _
      rw [if_neg hj]
      exact ih j hj
  · intro cfg2 m ip2 t hdis
    unfold rateLimitStep
    rw [hdis]
    rfl

def c9Cfg : LimiterConfig := ⟨2, 4, true⟩

def c9CfgOff : LimiterConfig := ⟨2, 4, false⟩

def c9NoClients : ClientMap := fun _ => none

theorem c9_rate_limit_witness :
    (rateLimitStep c9Cfg (rateLimitIterate c9Cfg c9NoClients "203.0.113.7" 0 3)
      "203.0.113.7" 0).1 = true ∧
    (rateLimitStep c9Cfg (rateLimitIterate c9Cfg c9NoClients "203.0.113.7" 0 4)
      "203.0.113.7" 0).1 = false ∧
    (rateLimitStep c9Cfg (rateLimitIterate c9Cfg c9NoClients "203.0.113.7" 0 4)
      "203.0.113.7" (1 / 2)).1 = true ∧
    rateLimitIterate c9Cfg c9NoClients "203.0.113.7" 0 4 "198.51.100.9" =
      c9NoClients "198.51.100.9" ∧
    rateLimitStep c9CfgOff c9NoClients "203.0.113.7" 0 = (true, c9NoClients) :=
  have h := c9_rate_limit c9Cfg c9NoClients "203.0.113.7" 0 (1 / 2) rfl rfl
    (by norm_num [c9Cfg]) (by norm_num [c9Cfg]) (by norm_num [c9Cfg])
  ⟨h.1 3 (by norm_num [c9Cfg]), h.2.1, h.2.2.1,
   h.2.2.2.1 4 "198.51.100.9" (by decide),
   h.2.2.2.2 c9CfgOff c9NoClients "203.0.113.7" 0 rfl⟩

/-! ## Token generation (src/unnamed/part_002)

`generateToken` draws 16 bytes from crypto/rand (the `randomBytes` argument
here; a read failure returns the error and no token, which plays no further
role), encodes them as unpadded standard base32 for the plaintext and stores
the SHA-256 digest of the plaintext.  Both library primitives are
re-implemented bit-for-bit below so the 26-character/alphabet facts are
provable. -/

/-- The bits of one byte, most significant first. -/
def byteToBits (b : Nat) : List Bool :=
  [b.testBit 7, b.testBit 6, b.testBit 5, b.testBit 4,
   b.testBit 3, b.testBit 2, b.testBit 1, b.testBit 0]

/-- Value of a bit string, most significant first. -/
def bitsVal : List Bool → Nat
  | [] => 0
  | b :: rest => (if b then 1 else 0) * 2 ^ rest.length + bitsVal rest

/-- Split a bit string into 5-bit groups, the last group padded with zero
bits (RFC 4648 base32 grouping). -/
def chunk5 : List Bool → List (List Bool)
  | [] => []
  | b :: rest => List.takeD 5 (b :: rest) false :: chunk5 (rest.drop 4)
termination_by l => l.length
decreasing_by
  simp only [List.length_drop, List.length_cons]
  omega

def base32StdAlphabet : List Char := "ABCDEFGHIJKLMNOPQRSTUVWXYZ234567".toList

/-- `base32.StdEncoding.WithPadding(base32.NoPadding).EncodeToString`. -/
def base32EncodeNoPad (bytes : List Nat) : String :=
  ((chunk5 (bytes.flatMap byteToBits)).map
    fun c => base32StdAlphabet.getD (bitsVal c) 'A').asString

theorem chunk5_length : ∀ l : List Bool, (chunk5 l).length = (l.length + 4) / 5
  | [] => by simp [chunk5]
  | b :: rest => by
    rw [chunk5]
    have ih := chunk5_length (rest.drop 4)
    simp only [List.length_cons, ih, List.length_drop]
    omega
termination_by l => l.length
decreasing_by
  simp only [List.length_drop, List.length_cons]
  omega

theorem flatMap_byteToBits_length (bytes : List Nat) :
    (bytes.flatMap byteToBits).length = 8 * bytes.length := by
  induction bytes with
  | nil => rfl
  | cons b rest ih =>
    rw [List.flatMap_cons, List.length_append, ih]
    simp [byteToBits]
    ring

theorem base32StdAlphabet_getD_mem (v : Nat) :
    base32StdAlphabet.getD v 'A' ∈ base32StdAlphabet := by
  by_cases h : v < base32StdAlphabet.length
  · rw [List.getD_eq_getElem base32StdAlphabet 'A' h]
    exact List.getElem_mem h
  · rw [List.getD_eq_default base32StdAlphabet 'A' (Nat.le_of_not_lt h)]
    decide

theorem base32EncodeNoPad_length (bytes : List Nat) (h : bytes.length = 16) :
    (base32EncodeNoPad bytes).toList.length = 26 := by
  unfold base32EncodeNoPad
  rw [List.toList_asString, List.length_map, chunk5_length,
    flatMap_byteToBits_length, h]

theorem base32EncodeNoPad_alphabet (bytes : List Nat) :
    ∀ c ∈ (base32EncodeNoPad bytes).toList, c ∈ base32StdAlphabet := by
  unfold base32EncodeNoPad
  intro c hc
  rw [List.toList_asString, List.mem_map] at hc
  rcases hc with ⟨g, _, hg⟩
  rw [← hg]
  exact base32StdAlphabet_getD_mem (bitsVal g)

/-! ### SHA-256 (crypto/sha256), over byte lists, 32-bit words as Nat mod 2^32 -/

def w32 (n : Nat) : Nat := n % 4294967296

def rotr32 (x n : Nat) : Nat := w32 ((x >>> n) ||| (x <<< (32 - n)))

def shaCh (x y z : Nat) : Nat := (x &&& y) ^^^ ((x ^^^ 4294967295) &&& z)

def shaMaj (x y z : Nat) : Nat := (x &&& y) ^^^ (x &&& z) ^^^ (y &&& z)

def bigSigma0 (x : Nat) : Nat := (rotr32 x 2) ^^^ (rotr32 x 13) ^^^ (rotr32 x 22)

def bigSigma1 (x : Nat) : Nat := (rotr32 x 6) ^^^ (rotr32 x 11) ^^^ (rotr32 x 25)

def smallSigma0 (x : Nat) : Nat := (rotr32 x 7) ^^^ (rotr32 x 18) ^^^ (x >>> 3)

def smallSigma1 (x : Nat) : Nat := (rotr32 x 17) ^^^ (rotr32 x 19) ^^^ (x >>> 10)

/-- Big-endian bytes of `n`, `k` bytes wide. -/
def toBytesBE (k n : Nat) : List Nat :=
  (List.range k).map fun i => (n >>> (8 * (k - 1 - i))) % 256

/-- Split a list into consecutive groups of `k` (the inputs below always
have length a multiple of `k`). -/
def chunkExact (k : Nat) : List Nat → List (List Nat)
  | [] => []
  | a :: rest =>
      if _h : k = 0 then []
      else (a :: rest).take k :: chunkExact k ((a :: rest).drop k)
termination_by l => l.length
decreasing_by
  simp only [List.length_drop, List.length_cons]
  omega

/-- One 32-bit big-endian word from 4 bytes. -/
def wordBE : List Nat → Nat
  | [b0, b1, b2, b3] => ((b0 * 256 + b1) * 256 + b2) * 256 + b3
  | _ => 0

/-- SHA-256 message padding: 0x80, zeros to 56 mod 64, 8-byte bit length. -/
def sha256Pad (msg : List Nat) : List Nat :=
  let z := (120 - (msg.length + 1) % 64) % 64
  msg ++ [128] ++ List.replicate z 0 ++ toBytesBE 8 (8 * msg.length)

def sha256K : List Nat :=
  [1116352408, 1899447441, 3049323471, 3921009573, 961987163,
   1508970993, 2453635748, 2870763221, 3624381080, 310598401,
   607225278, 1426881987, 1925078388, 2162078206, 2614888103,
   3248222580, 3835390401, 4022224774, 264347078, 604807628,
   770255983, 1249150122, 1555081692, 1996064986, 2554220882,
   2821834349, 2952996808, 3210313671, 3336571891, 3584528711,
   113926993, 338241895, 666307205, 773529912, 1294757372,
   1396182291, 1695183700, 1986661051, 2177026350, 2456956037,
   2730485921, 2820302411, 3259730800, 3345764771, 3516065817,
   3600352804, 4094571909, 275423344, 430227734, 506948616,
   659060556, 883997877, 958139571, 1322822218, 1537002063,
   1747873779, 1955562222, 2024104815, 2227730452, 2361852424,
   2428436474, 2756734187, 3204031479, 3329325298]

/-- The eight initial SHA-256 hash words (FIPS 180-4 5.3.3), in decimal. -/
def sha256InitH : List Nat :=
  [1779033703, 3144134277, 1013904242, 2773480762,
   1359893119, 2600822924, 528734635, 1541459225]

/-- Extend the 16 block words to the 64-entry message schedule. -/
def sha256Extend (w16 : List Nat) : List Nat :=
  (List.range 48).foldl
    (fun w _ =>
      let i := w.length
      w ++ [w32 (smallSigma1 (w.getD (i - 2) 0) + w.getD (i - 7) 0 +
        smallSigma0 (w.getD (i - 15) 0) + w.getD (i - 16) 0)])
    w16

/-- The 64 compression rounds on the working variables [a,b,c,d,e,f,g,h]. -/
def sha256Rounds (w : List Nat) (hs : List Nat) : List Nat :=
  (List.range 64).foldl
    (fun st t =>
      match st with
      | [a, b, c, d, e, f, g, h] =>
          let t1 := w32 (h + bigSigma1 e + shaCh e f g + sha256K.getD t 0 + w.getD t 0)
          let t2 := w32 (bigSigma0 a + shaMaj a b c)
          [w32 (t1 + t2), a, b, c, w32 (d + t1), e, f, g]
      | other => other)
    hs

/-- `sha256.Sum256` over a byte list, producing the 32 digest bytes. -/
def sha256 (msg : List Nat) : List Nat :=
  let blocks := chunkExact 64 (sha256Pad msg)
  let final := blocks.foldl
    (fun hs block =>
      List.zipWith (fun x y => w32 (x + y)) hs
        (sha256Rounds (sha256Extend ((chunkExact 4 block).map wordBE)) hs))
    sha256InitH
  final.flatMap (toBytesBE 4)

theorem foldr_utf8_length_of_single (cs : List Char)
    (h : ∀ c ∈ cs, (charUtf8Bytes c).length = 1) :
    (cs.foldr (fun c acc => charUtf8Bytes c ++ acc) []).length = cs.length := by
  induction cs with
  | nil => rfl
  | cons c rest ih =>
    rw [List.foldr_cons, List.length_append, List.length_cons,
      h c (List.mem_cons_self c rest),
      ih fun x hx => h x (List.mem_cons_of_mem c hx)]
    omega

theorem base32StdAlphabet_single_byte :
    ∀ c ∈ base32StdAlphabet, (charUtf8Bytes c).length = 1 := by decide

/-- `Token` from the token model source. -/
structure Token where
  plaintext : String
  hash : List Nat
  userID : Int
  expiry : Int
  scope : String
deriving Repr, DecidableEq

/-- `generateToken`: the crypto/rand bytes and the clock are explicit
arguments; a random-read failure in Go returns (nil, err) before any field
is derived and so is outside this value-level model. -/
def generateToken (userID ttl : Int) (scope : String) (now : Int)
    (randomBytes : List Nat) : Token :=
  let plaintext := base32EncodeNoPad randomBytes
  { plaintext := plaintext
    hash := sha256 (utf8Bytes plaintext)
    userID := userID
    expiry := now + ttl
    scope := scope }

/-- C4: for every userID, ttl and scope, the token generated from 16 random
bytes has as plaintext the unpadded base32 encoding of those bytes — exactly
26 characters, all from the base32 alphabet, 26 UTF-8 bytes, so it passes
the 26-byte plaintext validation — its stored Hash is the SHA-256 digest of
that plaintext, and its Expiry is the generation time plus ttl. -/
theorem c4_generate_token (userID ttl : Int) (scope : String) (now : Int)
    (randomBytes : List Nat) (h16 : randomBytes.length = 16) :
    (generateToken userID ttl scope now randomBytes).plaintext =
      base32EncodeNoPad randomBytes ∧
    (generateToken userID ttl scope now randomBytes).plaintext.toList.length = 26 ∧
    goLen (generateToken userID ttl scope now randomBytes).plaintext = 26 ∧
    (∀ c ∈ (generateToken userID ttl scope now randomBytes).plaintext.toList,
      c ∈ base32StdAlphabet) ∧
    (generateToken userID ttl scope now randomBytes).hash =
      sha256 (utf8Bytes (generateToken userID ttl scope now randomBytes).plaintext) ∧
    (generateToken userID ttl scope now randomBytes).expiry = now + ttl ∧
    (generateToken userID ttl scope now randomBytes).userID = userID ∧
    (generateToken userID ttl scope now randomBytes).scope = scope ∧
    (ValidateTokenPlaintext Validator.new
      (generateToken userID ttl scope now randomBytes).plaintext).valid = true := by
  have hplain : (generateToken userID ttl scope now randomBytes).plaintext =
      base32EncodeNoPad randomBytes := rfl
  have hlen : (generateToken userID ttl scope now randomBytes).plaintext.toList.length
      = 26 := by
    rw [hplain]
    exact base32EncodeNoPad_length randomBytes h16
  have halpha : ∀ c ∈ (generateToken userID ttl scope now randomBytes).plaintext.toList,
      c ∈ base32StdAlphabet := by
    rw [hplain]
    exact base32EncodeNoPad_alphabet randomBytes
  have hgo : goLen (generateToken userID ttl scope now randomBytes).plaintext = 26 := by
    unfold goLen utf8Bytes
    rw [foldr_utf8_length_of_single _
      (fun c hc => base32StdAlphabet_single_byte c (halpha c hc))]
    exact hlen
  have hne : (generateToken userID ttl scope now randomBytes).plaintext ≠ "" := by
    intro hc
    rw [hc] at hlen
    simp at hlen
  refine ⟨hplain, hlen, hgo, halpha, rfl, rfl, rfl, rfl, ?_⟩
  unfold ValidateTokenPlaintext Validator.check
  simp [hne, hgo, Validator.new, Validator.valid]

def c4BytesEx : List Nat := [0, 1, 2, 3, 4, 5, 6, 7, 8, 9, 10, 11, 12, 13, 14, 15]

theorem c4_generate_token_witness :
    (generateToken 7 86400 ScopeAuthentication 1000 c4BytesEx).plaintext =
      base32EncodeNoPad c4BytesEx ∧
    (generateToken 7 86400 ScopeAuthentication 1000 c4BytesEx).plaintext.toList.length = 26 ∧
    goLen (generateToken 7 86400 ScopeAuthentication 1000 c4BytesEx).plaintext = 26 ∧
    (∀ c ∈ (generateToken 7 86400 ScopeAuthentication 1000 c4BytesEx).plaintext.toList,
      c ∈ base32StdAlphabet) ∧
    (generateToken 7 86400 ScopeAuthentication 1000 c4BytesEx).hash =
      sha256 (utf8Bytes (generateToken 7 86400 ScopeAuthentication 1000 c4BytesEx).plaintext) ∧
    (generateToken 7 86400 ScopeAuthentication 1000 c4BytesEx).expiry = 1000 + 86400 ∧
    (generateToken 7 86400 ScopeAuthentication 1000 c4BytesEx).userID = 7 ∧
    (generateToken 7 86400 ScopeAuthentication 1000 c4BytesEx).scope = ScopeAuthentication ∧
    (ValidateTokenPlaintext Validator.new
      (generateToken 7 86400 ScopeAuthentication 1000 c4BytesEx).plaintext).valid = true :=
  c4_generate_token 7 86400 ScopeAuthentication 1000 c4BytesEx (by decide)

/-! ## Partial update of movies: PATCH /v1/movies/:id (cmd/api/movies.go)

The handler decodes the body into a struct of pointer fields
(`*string`, `*int32`, `*data.Runtime`) and a slice field (`[]string`);
encoding/json stores nil for a field that is absent or whose value is the
JSON literal null.  JSON values are modelled by `JVal`, a body by an
association list of key/value pairs processed in order (later duplicates
overwrite, as in encoding/json), with `DisallowUnknownFields` making an
unknown key a decode error.  The exact-match field keys model the lowercase
json tags used by the struct.  `Runtime` has no custom UnmarshalJSON in the
sources, so a runtime value is a JSON number. -/

inductive JVal where
  | null
  | str (s : String)
  | num (n : Int)
  | boolean (b : Bool)
  | arr (xs : List JVal)

/-- Discriminator for the JSON null literal (equality on nested `JVal` is
not needed anywhere else). -/
def JVal.isNull : JVal → Bool
  | JVal.null => true
  | _ => false

/-- The decoded input struct of `updateMovieHandler`; `none` is a Go nil
pointer (or nil slice for genres). -/
structure UpdateMovieInput where
  title : Option String
  year : Option Int
  runtime : Option Int
  genres : Option (List String)
deriving Repr, DecidableEq

def emptyUpdateMovieInput : UpdateMovieInput := ⟨none, none, none, none⟩

/-- Decode a JSON array into the `[]string` genres value: every element
must be a string. -/
def decodeStringArray : List JVal → Option (List String)
  | [] => some []
  | JVal.str s :: rest => (decodeStringArray rest).map (s :: ·)
  | _ => none

/-- Process one body field into the input struct: null stores nil, a value
of the right type stores through the pointer, a wrong type or unknown key
(DisallowUnknownFields) is a decode error. -/
def setInputField (inp : UpdateMovieInput) (key : String) (v : JVal) :
    Option UpdateMovieInput :=
  if key = "title" then
    match v with
    | JVal.null => some { inp with title := none }
    | JVal.str s => some { inp with title := some s }
    | _ => none
  else if key = "year" then
    match v with
    | JVal.null => some { inp with year := none }
    | JVal.num n => some { inp with year := some n }
    | _ => none
  else if key = "runtime" then
    match v with
    | JVal.null => some { inp with runtime := none }
    | JVal.num n => some { inp with runtime := some n }
    | _ => none
  else if key = "genres" then
    match v with
    | JVal.null => some { inp with genres := none }
    | JVal.arr xs => (decodeStringArray xs).map fun g => { inp with genres := some g }
    | _ => none
  else none

def decodeFrom (inp : UpdateMovieInput) : List (String × JVal) → Option UpdateMovieInput
  | [] => some inp
  | kv :: rest =>
      match setInputField inp kv.1 kv.2 with
      | none => none
      | some inp2 => decodeFrom inp2 rest

/-- Decoding the whole body via `readJSON` into the zero-valued struct. -/
def decodeUpdateMovieInput (obj : List (String × JVal)) : Option UpdateMovieInput :=
  decodeFrom emptyUpdateMovieInput obj

/-- The merge block of `updateMovieHandler`: a provided (non-nil) field
replaces the stored value, a nil field keeps it. -/
def mergeUpdateInput (movie : Movie) (inp : UpdateMovieInput) : Movie :=
  { movie with
    title := inp.title.getD movie.title
    year := inp.year.getD movie.year
    runtime := inp.runtime.getD movie.runtime
    genres := inp.genres.getD movie.genres }

/-- `ValidateMovie` from internal/data/movies.go; `time.Now().Year()` is the
`currentYear` argument and `validator.Unique` (missing validator package) is
modelled from the spec as duplicate-freedom.  The `Genres != nil` check is
not separately representable over Lean lists (no nil/empty distinction) and
is subsumed by the at-least-1-genre check. -/
def ValidateMovie (currentYear : Int) (v : Validator) (m : Movie) : Validator :=
  (((((((((v.check (decide (m.title ≠ "")) "title" "must be provided").check
    (decide (goLen m.title < 500)) "title" "must not be more than 500 bytes long").check
    (decide (m.year ≠ 0)) "year" "must be provided").check
    (decide (m.year ≥ 1888)) "year" "must be greater than 1888").check
    (decide (m.year ≤ currentYear)) "year" "must not be in the future").check
    (decide (m.runtime ≠ 0)) "runtime" "must be provided").check
    (decide (m.runtime > 0)) "runtime" "must be a positive integer").check
    (decide (m.genres.length ≥ 1)) "genres" "must contain at least 1 genre").check
    (decide (m.genres.length ≤ 5)) "genres" "must not contain more than 5 genres").check
    (decide m.genres.Nodup) "genres" "must not contain duplicate values"

inductive MovieHandlerResp where
  | notFound
  | badRequest
  | failedValidation (errors : List (String × String))
  | editConflict
  | serverError
  | okMovie (m : Movie)
deriving Repr, DecidableEq

/-- The SELECT-by-id of `MovieModel.Get` over the list store used by the
update handler. -/
def movieDbFind (db : List Movie) (id : Int) : Option Movie :=
  db.find? fun r => decide (r.id = id)

/-- `updateMovieHandler`: read the id (invalid ids answer 404), fetch the
movie, decode the body, overlay the provided fields, validate, and run the
optimistic-concurrency update, mapping ErrEditConflict to 409. -/
def updateMovieHandler (currentYear : Int) (db : List Movie) (id : Int)
    (body : List (String × JVal)) : MovieHandlerResp × List Movie :=
  if id < 1 then (MovieHandlerResp.notFound, db)
  else
    match movieDbFind db id with
    | none => (MovieHandlerResp.notFound, db)
    | some movie =>
      match decodeUpdateMovieInput body with
      | none => (MovieHandlerResp.badRequest, db)
      | some inp =>
        let movie2 := mergeUpdateInput movie inp
        let v := ValidateMovie currentYear Validator.new movie2
        if !v.valid then (MovieHandlerResp.failedValidation v.errors, db)
        else
          match movieModelUpdate db movie2 with
          | (Except.error DataErr.editConflict, db2) => (MovieHandlerResp.editConflict, db2)
          | (Except.error _, db2) => (MovieHandlerResp.serverError, db2)
          | (Except.ok m2, db2) => (MovieHandlerResp.okMovie m2, db2)

theorem JVal.isNull_iff (v : JVal) : v.isNull = false ↔ v ≠ JVal.null := by
  cases v <;> simp [JVal.isNull]

/-- The named field of the input struct is still unset (nil). -/
def fieldUnset (inp : UpdateMovieInput) (k : String) : Prop :=
  (k = "title" → inp.title = none) ∧ (k = "year" → inp.year = none) ∧
  (k = "runtime" → inp.runtime = none) ∧ (k = "genres" → inp.genres = none)

theorem fieldUnset_empty (k : String) : fieldUnset emptyUpdateMovieInput k :=
  ⟨fun _ => rfl, fun _ => rfl, fun _ => rfl, fun _ => rfl⟩

/-- `setInputField` touches only the field named by its key. -/
theorem setInputField_other_fields (inp inp2 : UpdateMovieInput) (k : String) (v : JVal)
    (hset : setInputField inp k v = some inp2) :
    (k ≠ "title" → inp2.title = inp.title) ∧
    (k ≠ "year" → inp2.year = inp.year) ∧
    (k ≠ "runtime" → inp2.runtime = inp.runtime) ∧
    (k ≠ "genres" → inp2.genres = inp.genres) := by
  unfold setInputField at hset
  split_ifs at hset with h1 h2 h3 h4
  · subst h1
    cases v with
    | null =>
      rw [Option.some.injEq] at hset
      subst hset
      exact ⟨fun hne => absurd rfl hne, fun _ => rfl, fun _ => rfl, fun _ => rfl⟩
    | str s =>
      rw [Option.some.injEq] at hset
      subst hset
      exact ⟨fun hne => absurd rfl hne, fun _ => rfl, fun _ => rfl, fun _ => rfl⟩
    | num n => cases hset
    | boolean b => cases hset
    | arr xs => cases hset
  · subst h2
    cases v with
    | null =>
      rw [Option.some.injEq] at hset
      subst hset
      exact ⟨fun _ => rfl, fun hne => absurd rfl hne, fun _ => rfl, fun _ => rfl⟩
    | num n =>
      rw [Option.some.injEq] at hset
      subst hset
      exact ⟨fun _ => rfl, fun hne => absurd rfl hne, fun _ => rfl, fun _ => rfl⟩
    | str s => cases hset
    | boolean b => cases hset
    | arr xs => cases hset
  · subst h3
    cases v with
    | null =>
      rw [Option.some.injEq] at hset
      subst hset
      exact ⟨fun _ => rfl, fun _ => rfl, fun hne => absurd rfl hne, fun _ => rfl⟩
    | num n =>
      rw [Option.some.injEq] at hset
      subst hset
      exact ⟨fun _ => rfl, fun _ => rfl, fun hne => absurd rfl hne, fun _ => rfl⟩
    | str s => cases hset
    | boolean b => cases hset
    | arr xs => cases hset
  · subst h4
    cases v with
    | null =>
      rw [Option.some.injEq] at hset
      subst hset
      exact ⟨fun _ => rfl, fun _ => rfl, fun _ => rfl, fun hne => absurd rfl hne⟩
    | arr xs =>
      have hset2 : Option.map (fun g => { inp with genres := some g })
          (decodeStringArray xs) = some inp2 := hset
      cases hd : decodeStringArray xs with
      | none => rw [hd] at hset2; cases hset2
      | some g =>
        rw [hd, Option.map_some'] at hset2
        rw [Option.some.injEq] at hset2
        subst hset2
        exact ⟨fun _ => rfl, fun _ => rfl, fun _ => rfl, fun hne => absurd rfl hne⟩
    | str s => cases hset
    | num n => cases hset
    | boolean b => cases hset

/-- Storing null into a known field that is still unset leaves the struct
unchanged. -/
theorem setInputField_null_id (inp : UpdateMovieInput) (k : String)
    (hk : k = "title" ∨ k = "year" ∨ k = "runtime" ∨ k = "genres")
    (hunset : fieldUnset inp k) :
    setInputField inp k JVal.null = some inp := by
  rcases inp with ⟨t, y, r, g⟩
  rcases hk with hk | hk | hk | hk <;> subst hk
  · have ht : t = none := hunset.1 rfl
    subst ht
    rfl
  · have hy : y = none := hunset.2.1 rfl
    subst hy
    rfl
  · have hr : r = none := hunset.2.2.1 rfl
    subst hr
    rfl
  · have hg : g = none := hunset.2.2.2 rfl
    subst hg
    rfl

theorem decodeFrom_append (l1 l2 : List (String × JVal)) : ∀ inp,
    decodeFrom inp (l1 ++ l2) = (decodeFrom inp l1).bind fun mid => decodeFrom mid l2 := by
  induction l1 with
  | nil => intro inp; rfl
  | cons kv rest ih =>
    intro inp
    rw [List.cons_append]
    simp only [decodeFrom]
    cases hset : setInputField inp kv.1 kv.2 with
    | none => rfl
    | some inp2 => simp [ih inp2]

theorem decodeFrom_omitted (obj : List (String × JVal)) : ∀ inp inp2,
    decodeFrom inp obj = some inp2 →
    ("title" ∉ obj.map Prod.fst → inp2.title = inp.title) ∧
    ("year" ∉ obj.map Prod.fst → inp2.year = inp.year) ∧
    ("runtime" ∉ obj.map Prod.fst → inp2.runtime = inp.runtime) ∧
    ("genres" ∉ obj.map Prod.fst → inp2.genres = inp.genres) := by
  induction obj with
  | nil =>
    intro inp inp2 h
    rw [decodeFrom, Option.some.injEq] at h
    subst h
    exact ⟨fun _ => rfl, fun _ => rfl, fun _ => rfl, fun _ => rfl⟩
  | cons kv rest ih =>
    intro inp inp2 h
    simp only [decodeFrom] at h
    cases hset : setInputField inp kv.1 kv.2 with
    | none => rw [hset] at h; cases h
    | some inp3 =>
      rw [hset] at h
      have hih := ih inp3 inp2 h
      have hpres := setInputField_other_fields inp inp3 kv.1 kv.2 hset
      refine ⟨fun hnm => ?_, fun hnm => ?_, fun hnm => ?_, fun hnm => ?_⟩
      · rw [List.map_cons, List.mem_cons, not_or] at hnm
        rw [hih.1 hnm.2, hpres.1 fun hc => hnm.1 hc.symm]
      · rw [List.map_cons, List.mem_cons, not_or] at hnm
        rw [hih.2.1 hnm.2, hpres.2.1 fun hc => hnm.1 hc.symm]
      · rw [List.map_cons, List.mem_cons, not_or] at hnm
        rw [hih.2.2.1 hnm.2, hpres.2.2.1 fun hc => hnm.1 hc.symm]
      · rw [List.map_cons, List.mem_cons, not_or] at hnm
        rw [hih.2.2.2 hnm.2, hpres.2.2.2 fun hc => hnm.1 hc.symm]

theorem decodeFrom_filter_null (obj : List (String × JVal)) : ∀ inp,
    (obj.map Prod.fst).Nodup →
    (∀ kv ∈ obj, kv.2 = JVal.null →
      (kv.1 = "title" ∨ kv.1 = "year" ∨ kv.1 = "runtime" ∨ kv.1 = "genres") ∧
      fieldUnset inp kv.1) →
    decodeFrom inp obj = decodeFrom inp (obj.filter fun kv => !kv.2.isNull) := by
  induction obj with
  | nil => intro inp _ _; rfl
  | cons kv rest ih =>
    intro inp hnd hnull
    rw [List.map_cons, List.nodup_cons] at hnd
    by_cases hv : kv.2 = JVal.null
    · have hk := hnull kv (List.mem_cons_self _ _) hv
      have hset : setInputField inp kv.1 kv.2 = some inp := by
        rw [hv]
        exact setInputField_null_id inp kv.1 hk.1 hk.2
      have hfil : ((kv :: rest).filter fun x => !x.2.isNull) =
          rest.filter fun x => !x.2.isNull := by
        apply List.filter_cons_of_neg
        simp [hv, JVal.isNull]
      have hstep : decodeFrom inp (kv :: rest) = decodeFrom inp rest := by
        simp only [decodeFrom, hset]
      rw [hstep, hfil]
      exact ih inp hnd.2 fun kv2 h2 hv2 => hnull kv2 (List.mem_cons_of_mem _ h2) hv2
    · have hfil : ((kv :: rest).filter fun x => !x.2.isNull) =
          kv :: rest.filter fun x => !x.2.isNull := by
        apply List.filter_cons_of_pos
        simp [(JVal.isNull_iff kv.2).mpr hv]
      rw [hfil]
      simp only [decodeFrom]
      cases hset : setInputField inp kv.1 kv.2 with
      | none => rfl
      | some inp3 =>
        apply ih inp3 hnd.2
        intro kv2 h2 hv2
        have hk2 := hnull kv2 (List.mem_cons_of_mem _ h2) hv2
        have hne : kv2.1 ≠ kv.1 := fun hc =>
          hnd.1 (by rw [← hc]; exact List.mem_map_of_mem Prod.fst h2)
        have hpres := setInputField_other_fields inp inp3 kv.1 kv.2 hset
        refine ⟨hk2.1, fun h => ?_, fun h => ?_, fun h => ?_, fun h => ?_⟩
        · rw [hpres.1 fun hc => hne (h.trans hc.symm)]
          exact hk2.2.1 h
        · rw [hpres.2.1 fun hc => hne (h.trans hc.symm)]
          exact hk2.2.2.1 h
        · rw [hpres.2.2.1 fun hc => hne (h.trans hc.symm)]
          exact hk2.2.2.2.1 h
        · rw [hpres.2.2.2 fun hc => hne (h.trans hc.symm)]
          exact hk2.2.2.2.2 h

theorem nodup_keys_tail_not_mem {k : String} {v : JVal}
    (pre post : List (String × JVal))
    (hnd : (((pre ++ (k, v) :: post)).map Prod.fst).Nodup) :
    k ∉ post.map Prod.fst := by
  rw [List.map_append, List.map_cons] at hnd
  have h2 := List.Nodup.of_append_right hnd
  rw [List.nodup_cons] at h2
  exact h2.1

theorem decodeFrom_mem_field (obj : List (String × JVal)) (inp2 : UpdateMovieInput)
    (hnd : (obj.map Prod.fst).Nodup)
    (h : decodeUpdateMovieInput obj = some inp2) :
    (("title", JVal.null) ∈ obj → inp2.title = none) ∧
    (∀ s, ("title", JVal.str s) ∈ obj → inp2.title = some s) ∧
    (("year", JVal.null) ∈ obj → inp2.year = none) ∧
    (∀ n, ("year", JVal.num n) ∈ obj → inp2.year = some n) ∧
    (("runtime", JVal.null) ∈ obj → inp2.runtime = none) ∧
    (∀ n, ("runtime", JVal.num n) ∈ obj → inp2.runtime = some n) ∧
    (("genres", JVal.null) ∈ obj → inp2.genres = none) ∧
    (∀ xs gs, ("genres", JVal.arr xs) ∈ obj → decodeStringArray xs = some gs →
      inp2.genres = some gs) := by
  unfold decodeUpdateMovieInput at h
  refine ⟨fun hmem => ?_, fun s hmem => ?_, fun hmem => ?_, fun n hmem => ?_,
    fun hmem => ?_, fun n hmem => ?_, fun hmem => ?_, fun xs gs hmem hdec => ?_⟩
  · rcases List.append_of_mem hmem with ⟨pre, post, rfl⟩
    rw [decodeFrom_append] at h
    rcases Option.bind_eq_some.mp h with ⟨mid, _, hpost⟩
    have hpost2 : decodeFrom { mid with title := none } post = some inp2 := hpost
    rw [(decodeFrom_omitted post _ inp2 hpost2).1
      (nodup_keys_tail_not_mem pre post hnd)]
  · rcases List.append_of_mem hmem with ⟨pre, post, rfl⟩
    rw [decodeFrom_append] at h
    rcases Option.bind_eq_some.mp h with ⟨mid, _, hpost⟩
    have hpost2 : decodeFrom { mid with title := some s } post = some inp2 := hpost
    rw [(decodeFrom_omitted post _ inp2 hpost2).1
      (nodup_keys_tail_not_mem pre post hnd)]
  · rcases List.append_of_mem hmem with ⟨pre, post, rfl⟩
    rw [decodeFrom_append] at h
    rcases Option.bind_eq_some.mp h with ⟨mid, _, hpost⟩
    have hpost2 : decodeFrom { mid with year := none } post = some inp2 := hpost
    rw [(decodeFrom_omitted post _ inp2 hpost2).2.1
      (nodup_keys_tail_not_mem pre post hnd)]
  · rcases List.append_of_mem hmem with ⟨pre, post, rfl⟩
    rw [decodeFrom_append] at h
    rcases Option.bind_eq_some.mp h with ⟨mid, _, hpost⟩
    have hpost2 : decodeFrom { mid with year := some n } post = some inp2 := hpost
    rw [(decodeFrom_omitted post _ inp2 hpost2).2.1
      (nodup_keys_tail_not_mem pre post hnd)]
  · rcases List.append_of_mem hmem with ⟨pre, post, rfl⟩
    rw [decodeFrom_append] at h
    rcases Option.bind_eq_some.mp h with ⟨mid, _, hpost⟩
    have hpost2 : decodeFrom { mid with runtime := none } post = some inp2 := hpost
    rw [(decodeFrom_omitted post _ inp2 hpost2).2.2.1
      (nodup_keys_tail_not_mem pre post hnd)]
  · rcases List.append_of_mem hmem with ⟨pre, post, rfl⟩
    rw [decodeFrom_append] at h
    rcases Option.bind_eq_some.mp h with ⟨mid, _, hpost⟩
    have hpost2 : decodeFrom { mid with runtime := some n } post = some inp2 := hpost
    rw [(decodeFrom_omitted post _ inp2 hpost2).2.2.1
      (nodup_keys_tail_not_mem pre post hnd)]
  · rcases List.append_of_mem hmem with ⟨pre, post, rfl⟩
    rw [decodeFrom_append] at h
    rcases Option.bind_eq_some.mp h with ⟨mid, _, hpost⟩
    have hpost2 : decodeFrom { mid with genres := none } post = some inp2 := hpost
    rw [(decodeFrom_omitted post _ inp2 hpost2).2.2.2
      (nodup_keys_tail_not_mem pre post hnd)]
  · rcases List.append_of_mem hmem with ⟨pre, post, rfl⟩
    rw [decodeFrom_append] at h
    rcases Option.bind_eq_some.mp h with ⟨mid, _, hpost⟩
    have hset : setInputField mid "genres" (JVal.arr xs) =
        some { mid with genres := some gs } := by
      have hrfl : setInputField mid "genres" (JVal.arr xs) =
          (decodeStringArray xs).map (fun g => { mid with genres := some g }) := rfl
      rw [hrfl, hdec, Option.map_some']
    have hpost2 : decodeFrom { mid with genres := some gs } post = some inp2 := by
      have h3 := hpost
      simp only [decodeFrom, hset] at h3
      exact h3
    rw [(decodeFrom_omitted post _ inp2 hpost2).2.2.2
      (nodup_keys_tail_not_mem pre post hnd)]

/-- C10: in the partial-update handler for PATCH /v1/movies/:id a field whose
JSON value is null is indistinguishable from an omitted field — a body with
unique keys decodes exactly as the same body with its null fields removed,
and a null or omitted field decodes to the nil (none) pointer/slice — so the
merge step keeps the stored value for every field given as null or omitted
and replaces exactly the non-null provided fields, before validation and the
store update, which the handler then runs on the merged movie. -/
theorem c10_partial_update_null_omitted (body : List (String × JVal))
    (inp : UpdateMovieInput) (movie : Movie) (s : String) (yn rn : Int)
    (xs : List JVal) (gs : List String) (currentYear : Int) (db : List Movie)
    (id : Int) :
    ((body.map Prod.fst).Nodup →
      (∀ kv ∈ body, kv.2 = JVal.null →
        kv.1 = "title" ∨ kv.1 = "year" ∨ kv.1 = "runtime" ∨ kv.1 = "genres") →
      decodeUpdateMovieInput body =
        decodeUpdateMovieInput (body.filter fun kv => !kv.2.isNull)) ∧
    ((body.map Prod.fst).Nodup → decodeUpdateMovieInput body = some inp →
      ((("title", JVal.null) ∈ body ∨ "title" ∉ body.map Prod.fst) →
        inp.title = none) ∧
      (("title", JVal.str s) ∈ body → inp.title = some s) ∧
      ((("year", JVal.null) ∈ body ∨ "year" ∉ body.map Prod.fst) →
        inp.year = none) ∧
      (("year", JVal.num yn) ∈ body → inp.year = some yn) ∧
      ((("runtime", JVal.null) ∈ body ∨ "runtime" ∉ body.map Prod.fst) →
        inp.runtime = none) ∧
      (("runtime", JVal.num rn) ∈ body → inp.runtime = some rn) ∧
      ((("genres", JVal.null) ∈ body ∨ "genres" ∉ body.map Prod.fst) →
        inp.genres = none) ∧
      (("genres", JVal.arr xs) ∈ body → decodeStringArray xs = some gs →
        inp.genres = some gs)) ∧
    ((inp.title = none → (mergeUpdateInput movie inp).title = movie.title) ∧
      (∀ t, inp.title = some t → (mergeUpdateInput movie inp).title = t) ∧
      (inp.year = none → (mergeUpdateInput movie inp).year = movie.year) ∧
      (∀ y, inp.year = some y → (mergeUpdateInput movie inp).year = y) ∧
      (inp.runtime = none → (mergeUpdateInput movie inp).runtime = movie.runtime) ∧
      (∀ r, inp.runtime = some r → (mergeUpdateInput movie inp).runtime = r) ∧
      (inp.genres = none → (mergeUpdateInput movie inp).genres = movie.genres) ∧
      (∀ g, inp.genres = some g → (mergeUpdateInput movie inp).genres = g)) ∧
    (¬ id < 1 → movieDbFind db id = some movie →
      decodeUpdateMovieInput body = some inp →
      (ValidateMovie currentYear Validator.new (mergeUpdateInput movie inp)).valid
        = true →
      updateMovieHandler currentYear db id body =
        (match (movieModelUpdate db (mergeUpdateInput movie inp)).1 with
          | Except.error DataErr.editConflict => MovieHandlerResp.editConflict
          | Except.error _ => MovieHandlerResp.serverError
          | Except.ok m2 => MovieHandlerResp.okMovie m2,
         (movieModelUpdate db (mergeUpdateInput movie inp)).2)) := by
  refine ⟨fun hnd hknown => ?_, fun hnd hdec => ?_, ?_, fun hid hfind hdec hval => ?_⟩
  · exact decodeFrom_filter_null body emptyUpdateMovieInput hnd
      fun kv hm hn => ⟨hknown kv hm hn, fieldUnset_empty kv.1⟩
  · have hmem := decodeFrom_mem_field body inp hnd hdec
    have homit := decodeFrom_omitted body emptyUpdateMovieInput inp hdec
    refine ⟨?_, hmem.2.1 s, ?_, hmem.2.2.2.1 yn, ?_, hmem.2.2.2.2.2.1 rn, ?_,
      hmem.2.2.2.2.2.2.2 xs gs⟩
    · rintro (hm | hm)
      · exact hmem.1 hm
      · exact homit.1 hm
    · rintro (hm | hm)
      · exact hmem.2.2.1 hm
      · exact homit.2.1 hm
    · rintro (hm | hm)
      · exact hmem.2.2.2.2.1 hm
      · exact homit.2.2.1 hm
    · rintro (hm | hm)
      · exact hmem.2.2.2.2.2.2.1 hm
      · exact homit.2.2.2 hm
  · refine ⟨fun h => ?_, fun t h => ?_, fun h => ?_, fun y h => ?_, fun h => ?_,
      fun r h => ?_, fun h => ?_, fun g h => ?_⟩ <;>
      simp [mergeUpdateInput, h]
  · have hgoal : updateMovieHandler currentYear db id body =
        (if (!(ValidateMovie currentYear Validator.new
            (mergeUpdateInput movie inp)).valid) = true
         then (MovieHandlerResp.failedValidation
            (ValidateMovie currentYear Validator.new (mergeUpdateInput movie inp)).errors,
            db)
         else match movieModelUpdate db (mergeUpdateInput movie inp) with
          | (Except.error DataErr.editConflict, db2) =>
              (MovieHandlerResp.editConflict, db2)
          | (Except.error _, db2) => (MovieHandlerResp.serverError, db2)
          | (Except.ok m2, db2) => (MovieHandlerResp.okMovie m2, db2)) := by
      unfold updateMovieHandler
      rw [if_neg hid, hfind, hdec]
    rw [hgoal, hval]
    simp only [Bool.not_true, Bool.false_eq_true, if_false]
    cases hupd : movieModelUpdate db (mergeUpdateInput movie inp) with
    | mk r db2 =>
      cases r with
      | error e => cases e <;> rfl
      | ok m2 => rfl

def c10MovieEx : Movie :=
  { id := 1, createdAt := 0, title := "Alien", year := 1900, runtime := 117,
    genres := ["horror"], version := 1 }

def c10BodyEx : List (String × JVal) :=
  [("title", JVal.null), ("year", JVal.num 1979),
   ("genres", JVal.arr [JVal.str "drama"])]

def c10InputEx : UpdateMovieInput := ⟨none, some 1979, none, some ["drama"]⟩

theorem c10_partial_update_null_omitted_witness :
    decodeUpdateMovieInput c10BodyEx =
      decodeUpdateMovieInput (c10BodyEx.filter fun kv => !kv.2.isNull) ∧
    c10InputEx.title = none ∧
    c10InputEx.year = some 1979 ∧
    c10InputEx.runtime = none ∧
    c10InputEx.genres = some ["drama"] ∧
    (mergeUpdateInput c10MovieEx c10InputEx).title = c10MovieEx.title ∧
    (mergeUpdateInput c10MovieEx c10InputEx).year = 1979 ∧
    (mergeUpdateInput c10MovieEx c10InputEx).runtime = c10MovieEx.runtime ∧
    (mergeUpdateInput c10MovieEx c10InputEx).genres = ["drama"] ∧
    updateMovieHandler 2026 [c10MovieEx] 1 c10BodyEx =
      (match (movieModelUpdate [c10MovieEx]
          (mergeUpdateInput c10MovieEx c10InputEx)).1 with
        | Except.error DataErr.editConflict => MovieHandlerResp.editConflict
        | Except.error _ => MovieHandlerResp.serverError
        | Except.ok m2 => MovieHandlerResp.okMovie m2,
       (movieModelUpdate [c10MovieEx] (mergeUpdateInput c10MovieEx c10InputEx)).2) := by
  have hknown : ∀ kv ∈ c10BodyEx, kv.2 = JVal.null →
      kv.1 = "title" ∨ kv.1 = "year" ∨ kv.1 = "runtime" ∨ kv.1 = "genres" := by
    intro kv hkv hn
    rcases List.mem_cons.mp hkv with h | hkv2
    · rw [h]
      exact Or.inl rfl
    rcases List.mem_cons.mp hkv2 with h | hkv3
    · rw [h] at hn
      exact JVal.noConfusion hn
    rcases List.mem_cons.mp hkv3 with h | hkv4
    · rw [h] at hn
      exact JVal.noConfusion hn
    · cases hkv4
  have hthm := c10_partial_update_null_omitted c10BodyEx c10InputEx c10MovieEx
    "x" 1979 0 [JVal.str "drama"] ["drama"] 2026 [c10MovieEx] 1
  have hfields := hthm.2.1 (by decide) rfl
  refine ⟨hthm.1 (by decide) hknown, ?_, ?_, ?_, ?_, ?_, ?_, ?_, ?_, ?_⟩
  · exact hfields.1 (Or.inl (List.mem_cons_self _ _))
  · exact hfields.2.2.2.1 (List.mem_cons_of_mem _ (List.mem_cons_self _ _))
  · exact hfields.2.2.2.2.1 (Or.inr (by decide))
  · exact hfields.2.2.2.2.2.2.2
      (List.mem_cons_of_mem _ (List.mem_cons_of_mem _ (List.mem_cons_self _ _))) rfl
  · exact hthm.2.2.1.1 rfl
  · exact hthm.2.2.1.2.2.2.1 1979 rfl
  · exact hthm.2.2.1.2.2.2.2.1 rfl
  · exact hthm.2.2.1.2.2.2.2.2.2.2 ["drama"] rfl
  · exact hthm.2.2.2 (by decide) rfl rfl (by decide)
